import Mathlib

/-!
# PawFeeds feeder firmware (`src/main.cpp`): embedding and verified properties

The firmware is a single-threaded Arduino sketch whose behaviour is a function
of its global variables and of the answers it gets from the outside world
(Wi-Fi, the cloud client, the clock, the stream).  The embedding is by explicit
state passing:

* `Device` holds the global variables of the sketch, the persistent key/value
  store, and `trace`, the sequence of externally visible operations performed
  so far (serial lines, actuator commands, delays, cloud calls);
* every function of the sketch is a Lean function `inputs → Device → Device`,
  the inputs being the values returned by the external calls it makes;
* `int` values are `Int`, `unsigned long` values are `Nat`; 32-bit wrap-around
  is written out (`wrapInt32`, `subU32`) where the sketch does arithmetic.
-/

namespace PawFeeds

/-! ## Machine arithmetic -/

/-- Two's complement reduction of an integer to the 32-bit `int` range. -/
def wrapInt32 (x : Int) : Int := (x + 2147483648) % 4294967296 - 2147483648

/-- Conversion of a signed value to `unsigned int` (32 bits). -/
def toU32 (x : Int) : Nat := (x % 4294967296).toNat

/-- Subtraction of two `unsigned long` (32-bit) values, as in `millis() - last`. -/
def subU32 (a b : Nat) : Nat := (a % 4294967296 + 4294967296 - b % 4294967296) % 4294967296

/-- Clamp to the range of a 32-bit `long`, the overflow behaviour of `strtol`. -/
def clampLong (x : Int) : Int :=
  if x > 2147483647 then 2147483647 else if x < -2147483648 then -2147483648 else x

/-! ## Arduino `String` and C string helpers -/

/-- Scan for the last occurrence of `c`, remembering the latest hit. -/
def lastIndexOfAux (c : Char) : List Char → Nat → Option Nat → Option Nat
  | [], _, acc => acc
  | x :: xs, i, acc => lastIndexOfAux c xs (i + 1) (if x = c then some i else acc)

/-- `String::lastIndexOf(char)`: index of the last occurrence, `-1` when absent. -/
def lastIndexOf (s : String) (c : Char) : Int :=
  match lastIndexOfAux c s.data 0 none with
  | some i => (i : Int)
  | none => -1

/-- Scan for the first occurrence of `c` at or after position `i`. -/
def indexOfCharAux (c : Char) : List Char → Nat → Option Nat
  | [], _ => none
  | x :: xs, i => if x = c then some i else indexOfCharAux c xs (i + 1)

/-- `String::indexOf(char)`: index of the first occurrence, `-1` when absent
(the character searched for is never NUL in this program). -/
def indexOfChar (s : String) (c : Char) : Int :=
  match indexOfCharAux c s.data 0 with
  | some i => (i : Int)
  | none => -1

/-- Whether `pat` is an initial segment of the character list. -/
def startsWith : List Char → List Char → Bool
  | [], _ => true
  | _ :: _, [] => false
  | p :: ps, x :: xs => p == x && startsWith ps xs

/-- Scan for the first position at which `pat` occurs (`strstr`). -/
def indexOfStrAux (pat : List Char) : List Char → Nat → Option Nat
  | [], i => if pat.isEmpty then some i else none
  | x :: xs, i => if startsWith pat (x :: xs) then some i else indexOfStrAux pat xs (i + 1)

/-- `String::indexOf(const String&, unsigned int fromIndex)`. -/
def indexOfStrFrom (s pat : String) (fromIndex : Int) : Int :=
  let start := toU32 fromIndex
  if start ≥ s.length then -1
  else
    match indexOfStrAux pat.data (s.data.drop start) start with
    | some i => (i : Int)
    | none => -1

/-- `String::indexOf(const String&)`, searching from the start. -/
def indexOfStr (s pat : String) : Int := indexOfStrFrom s pat 0

/-- `String::substring(unsigned int left, unsigned int right)`: the arguments are
converted to unsigned, swapped when out of order, and cut at the length. -/
def substring (s : String) (left right : Int) : String :=
  let l0 := toU32 left
  let r0 := toU32 right
  let l := if l0 > r0 then r0 else l0
  let r := if l0 > r0 then l0 else r0
  if l ≥ s.length then ""
  else
    let r1 := if r > s.length then s.length else r
    String.mk ((s.data.drop l).take (r1 - l))

/-- `String::substring(unsigned int beginIndex)`: up to the end of the string. -/
def substringFrom (s : String) (left : Int) : String :=
  substring s left (s.length : Int)

/-- C `isspace` in the "C" locale. -/
def isSpaceC (c : Char) : Bool :=
  c == ' ' || c == '\t' || c == '\n' || c == '\r' || c.toNat == 11 || c.toNat == 12

/-- Value of the leading run of decimal digits, starting from `acc`. -/
def digitsValue : List Char → Nat → Nat
  | [], acc => acc
  | c :: cs, acc => if c.isDigit then digitsValue cs (acc * 10 + (c.toNat - 48)) else acc

/-- C `atoi` / `atol` (`strtol` in base 10): leading white space, an optional
sign, then the leading run of digits; no digits gives `0`; the value is clamped
to the 32-bit `long` range as `strtol` does. -/
def atoi (s : String) : Int :=
  match s.data.dropWhile isSpaceC with
  | '-' :: cs => clampLong (-(digitsValue cs 0 : Int))
  | '+' :: cs => clampLong (digitsValue cs 0 : Int)
  | cs => clampLong (digitsValue cs 0 : Int)

/-- `String::toInt()`, which is `atol` on the buffer. -/
def toInt (s : String) : Int := atoi s

/-! ## Data model (globals of the sketch) -/

/-- The `Schedule` struct. -/
structure Schedule where
  id : String
  isEnabled : Bool
  bowlNumber : Int
  portionGrams : Int
  hour : Int
  minute : Int
  repeatDays : String
  deriving DecidableEq, Repr

/-- The `Command` struct. -/
structure Command where
  bowl : Int
  amount : Int
  deriving DecidableEq, Repr

/-- The `DeviceState` enumeration, in declaration order. -/
inductive DeviceState where
  | PROVISIONING_MODE
  | CONNECTING_WIFI
  | AUTHENTICATING_FIREBASE
  | REGISTERING_FIREBASE
  | OPERATIONAL
  | ERROR
  deriving DecidableEq, Repr

/-- The keys of the `"pawfeeds"` preferences namespace used by the sketch; a key
that was never written reads as the empty string (the default passed to
`getString`). -/
structure Preferences where
  ssid : String
  pass : String
  owner_uid : String
  feederId : String
  deriving DecidableEq, Repr

/-- The two servo objects. -/
inductive ServoId where
  | servoBowl1
  | servoBowl2
  deriving DecidableEq, Repr

/-- Lines written to the serial console, one constructor per print statement of
the modelled functions (library supplied error texts are not carried). -/
inductive LogLine where
  | booting
  | streamReadError
  | halting
  | wifiConnecting
  | wifiDot
  | wifiConnected
  | wifiFailed
  | authAlready
  | authConfiguring
  | waitingForToken
  | registering
  | feederDocCreated
  | userPatched
  | patchFailed
  | parseIdFailed
  | createFailed
  | apStarting
  | apAddress
  | webServerStarted
  | credentialsSaved
  | fetchingSchedules
  | loadedSchedule (id : String) (hour minute : Int) (enabled : Bool)
  | listFailed
  | triggeringSchedule (id : String)
  | processingCommand (bowl amount : Int)
  | nodeDeleted
  | nodeDeleteFailed
  | servoDispensing (amount bowlNumber : Int)
  | servoRotating (ms : Int)
  | streamStarting (path : String)
  | streamBeginFailed
  | streamStarted
  | streamEvent (eventType dataPath payload : String)
  | refetchSignal
  | streamTimedOut
  deriving DecidableEq, Repr

/-- Externally visible operations, in the order the sketch performs them. -/
inductive Effect where
  | serial (line : LogLine)
  | servoAttach (servo : ServoId)
  | servoWrite (servo : ServoId) (angle : Int)
  | delay (ms : Nat)
  | wifiBegin (ssid pass : String)
  | wifiSoftAP
  | serverBegin
  | firebaseBegin
  | createDocument (owner_uid : String)
  | patchDocument (usersPath feederId : String)
  | listDocuments (schedulePath : String)
  | deleteNode (path : String)
  | setNull (path : String)
  | beginStream (path : String)
  | setStreamCallback
  | readStream
  | putString (key value : String)
  | clientPrintln (text : String)
  | clientStop
  | restart
  deriving DecidableEq, Repr

/-- The global variables of the sketch, the preferences store, and the trace of
operations performed so far. `restarted` records that `ESP.restart()` was
called, after which no further code of the session runs. -/
structure Device where
  currentState : DeviceState
  preferences : Preferences
  feederId : String
  streamActive : Bool
  lastCmdTimestamp : Nat
  bootTimestamp : Nat
  schedules : List Schedule
  lastScheduleCheck : Nat
  lastScheduleFetch : Nat
  newCommandAvailable : Bool
  pendingCommand : Command
  restarted : Bool
  trace : List Effect
  deriving DecidableEq, Repr

/-- Append one operation to the trace. -/
def Device.emit (s : Device) (e : Effect) : Device :=
  { s with trace := s.trace ++ [e] }

/-- Write one line to the serial console. -/
def Device.print (s : Device) (l : LogLine) : Device :=
  s.emit (.serial l)

/-- The calibration constant `DISPENSE_MS_PER_GRAM`. -/
def DISPENSE_MS_PER_GRAM : Int := 50

/-- The global `streamPath`. -/
def streamPath : String := "/commands/"

/-! ## Actuation -/

/-- The sketch's `dispenseFood(int bowlNumber, int amount)`. The product is
computed in 32-bit `int` arithmetic and stored in a `long`; `delay` takes an
unsigned 32-bit number of milliseconds, to which the `long` is converted. -/
def dispenseFood (bowlNumber amount : Int) (s : Device) : Device :=
  let s1 := s.print (.servoDispensing amount bowlNumber)
  let targetServo : Option ServoId :=
    if bowlNumber = 1 then some .servoBowl1
    else if bowlNumber = 2 then some .servoBowl2
    else none
  match targetServo with
  | some servo =>
    let dispenseDuration : Int := wrapInt32 (amount * DISPENSE_MS_PER_GRAM)
    let s2 := s1.print (.servoRotating dispenseDuration)
    let s3 := s2.emit (.servoWrite servo 0)
    let s4 := s3.emit (.delay (toU32 dispenseDuration))
    s4.emit (.servoWrite servo 90)
  | none => s1

/-! ## Schedule engine -/

/-- One element of the `documents` array of a successful `listDocuments` reply,
as the JSON library hands it to `fetchSchedules`: the values obtained for the
paths `name`, `fields/isEnabled/booleanValue`, `fields/bowlNumber/integerValue`,
`fields/portionGrams/integerValue`, `fields/time/stringValue`, and the
`stringValue` of each element of `fields/repeatDays/arrayValue/values`. -/
structure ScheduleDoc where
  name : String
  isEnabled : Bool
  bowlNumber : String
  portionGrams : String
  time : String
  repeatDays : List String
  deriving DecidableEq, Repr

/-- The inner loop of `fetchSchedules` that concatenates the day tokens. -/
def concatDays : List String → String → String
  | [], days => days
  | d :: ds, days => concatDays ds (days ++ d)

/-- The body of the document loop of `fetchSchedules` up to `push_back`: the
`Schedule` built from one document. -/
def scheduleOfDoc (d : ScheduleDoc) : Schedule :=
  let fullPath := d.name
  let timeStr := d.time
  { id := substringFrom fullPath (lastIndexOf fullPath '/' + 1)
    isEnabled := d.isEnabled
    bowlNumber := atoi d.bowlNumber
    portionGrams := atoi d.portionGrams
    hour := toInt (substring timeStr 0 2)
    minute := toInt (substring timeStr 3 5)
    repeatDays := concatDays d.repeatDays "" }

/-- The document loop of `fetchSchedules`: every document is converted and
pushed onto `schedules`, then reported on the serial console. -/
def fetchLoop : List ScheduleDoc → Device → Device
  | [], s => s
  | d :: ds, s =>
    let sched := scheduleOfDoc d
    let s1 := { s with schedules := s.schedules ++ [sched] }
    let s2 := s1.print (.loadedSchedule sched.id sched.hour sched.minute sched.isEnabled)
    fetchLoop ds s2

/-- The sketch's `fetchSchedules()`. `listing` is the outcome of
`Firebase.Firestore.listDocuments`: `none` when the call fails, otherwise the
`documents` array of the reply. -/
def fetchSchedules (listing : Option (List ScheduleDoc)) (s : Device) : Device :=
  if s.feederId.length = 0 then s
  else
    let s1 := { s with schedules := [] }
    let s2 := s1.print .fetchingSchedules
    let schedulePath := ("feeders/" ++ s.feederId) ++ "/schedules"
    let s3 := s2.emit (.listDocuments schedulePath)
    match listing with
    | some arr => fetchLoop arr s3
    | none => s3.print .listFailed

/-- The fields of `struct tm` read by `checkSchedules`; `tm_wday` is in `0..6`
as `localtime` guarantees. -/
structure Tm where
  tm_wday : Fin 7
  tm_hour : Int
  tm_min : Int
  deriving DecidableEq, Repr

/-- The local array `dayOfWeek[] = "UMTWRFS"`, indexed from Sunday. -/
def dayOfWeek (wday : Fin 7) : Char :=
  "UMTWRFS".data.getD wday.val 'U'

/-- The loop of `checkSchedules` over the cache. -/
def checkLoop (timeinfo : Tm) : List Schedule → Device → Device
  | [], s => s
  | sched :: rest, s =>
    let s1 :=
      if sched.isEnabled && sched.hour == timeinfo.tm_hour && sched.minute == timeinfo.tm_min then
        if indexOfChar sched.repeatDays (dayOfWeek timeinfo.tm_wday) != -1 then
          dispenseFood sched.bowlNumber sched.portionGrams
            (s.print (.triggeringSchedule sched.id))
        else s
      else s
    checkLoop timeinfo rest s1

/-- The sketch's `checkSchedules()`. `m0` and `m1` are the two successive
readings of `millis()` (the rate-limit test and the stored value); `timeinfo`
is the result of `localtime`. -/
def checkSchedules (m0 m1 : Nat) (timeinfo : Tm) (s : Device) : Device :=
  if subU32 m0 s.lastScheduleCheck < 60000 then s
  else
    let s1 := { s with lastScheduleCheck := m1 }
    checkLoop timeinfo s1.schedules s1

/-! ## Command stream processor -/

/-- The sketch's `processPendingCommand()`; `deleteOk` is the result of
`Firebase.RTDB.deleteNode`. -/
def processPendingCommand (deleteOk : Bool) (s : Device) : Device :=
  if s.pendingCommand.amount > 0 ∧ s.pendingCommand.bowl > 0 then
    let s1 := s.print (.processingCommand s.pendingCommand.bowl s.pendingCommand.amount)
    let s2 := dispenseFood s1.pendingCommand.bowl s1.pendingCommand.amount s1
    let fullStreamPath := streamPath ++ s2.feederId
    let s3 := s2.emit (.deleteNode fullStreamPath)
    if deleteOk then s3.print .nodeDeleted else s3.print .nodeDeleteFailed
  else s

/-- A stream event as seen by `streamCallback`: the event descriptors and, for
each key read from the JSON payload, the converted value when `json.get`
finds the key (`none` when it does not). -/
structure FirebaseStream where
  eventType : String
  dataType : String
  dataPath : String
  payload : String
  command : Option String
  timestamp : Option Nat
  bowl : Option Int
  amount : Option Int
  deriving DecidableEq, Repr

/-- The sketch's `streamCallback(FirebaseStream data)`. `listing` is the outcome
of the `listDocuments` call made if the event is a refetch signal. -/
def streamCallback (data : FirebaseStream) (listing : Option (List ScheduleDoc))
    (s : Device) : Device :=
  let s0 := s.print (.streamEvent data.eventType data.dataPath data.payload)
  if data.dataType = "json" ∧ data.dataPath = "/" then
    let command : String := match data.command with
      | some c => c
      | none => ""
    if command = "feed" then
      let newTimestamp : Nat := match data.timestamp with
        | some t => t
        | none => 0
      let bowl : Int := match data.bowl with
        | some b => b
        | none => 0
      let amount : Int := match data.amount with
        | some a => a
        | none => 0
      if newTimestamp > 0 ∧ newTimestamp > s0.lastCmdTimestamp then
        { s0 with
          lastCmdTimestamp := newTimestamp
          pendingCommand := { bowl := bowl, amount := amount }
          newCommandAvailable := true }
      else s0
    else if command = "refetch_schedules" then
      let s1 := s0.print .refetchSignal
      let s2 := fetchSchedules listing s1
      let fullStreamPath := streamPath ++ s2.feederId
      s2.emit (.setNull fullStreamPath)
    else s0
  else s0

/-- The sketch's `streamTimeoutCallback(bool timeout)`. -/
def streamTimeoutCallback (timeout : Bool) (s : Device) : Device :=
  if timeout then
    { s.print .streamTimedOut with streamActive := false }
  else s

/-- The sketch's `startRTDBStream()`; `ready` is `Firebase.ready()` and
`beginOk` the result of `Firebase.RTDB.beginStream`. -/
def startRTDBStream (ready beginOk : Bool) (s : Device) : Device :=
  if s.feederId.length = 0 ∨ !ready then s
  else
    let fullStreamPath := streamPath ++ s.feederId
    let s1 := s.print (.streamStarting fullStreamPath)
    let s2 := s1.emit (.beginStream fullStreamPath)
    if !beginOk then s2.print .streamBeginFailed
    else
      let s3 := s2.emit .setStreamCallback
      { s3 with streamActive := true }.print .streamStarted

/-! ## Identity and registration -/

/-- The sketch's `parseFeederIdFromResponse`; `name` is the value the JSON
library finds under the key `"name"` of the response (`none` when the key is
absent or the response does not parse). -/
def parseFeederIdFromResponse (name : Option String) : String :=
  match name with
  | some path =>
    let lastSlash := lastIndexOf path '/'
    if lastSlash ≠ -1 then substringFrom path (lastSlash + 1) else ""
  | none => ""

/-- Answers of the outside world to `registerDeviceWithFirestore`:
`Firebase.ready()`, the result of `createDocument`, the `"name"` entry of its
payload, the result of `patchDocument`, the reading of `millis()`, and the
outcome of the `listDocuments` call of the first fetch. -/
structure RegisterIn where
  ready : Bool
  createOk : Bool
  payloadName : Option String
  patchOk : Bool
  now : Nat
  listing : Option (List ScheduleDoc)

/-- The sketch's `registerDeviceWithFirestore()`. -/
def registerDeviceWithFirestore (i : RegisterIn) (s : Device) : Device :=
  if !i.ready then s.print .waitingForToken
  else
    let s1 := s.print .registering
    let owner_uid := s1.preferences.owner_uid
    if owner_uid.length = 0 then { s1 with currentState := .ERROR }
    else
      let s2 := s1.emit (.createDocument owner_uid)
      if i.createOk then
        let s3 := s2.print .feederDocCreated
        let s4 := { s3 with feederId := parseFeederIdFromResponse i.payloadName }
        if s4.feederId.length > 0 then
          let s5 := { s4 with preferences := { s4.preferences with feederId := s4.feederId } }
          let s6 := s5.emit (.putString "feederId" s5.feederId)
          let usersPath := "users/" ++ owner_uid
          let s7 := s6.emit (.patchDocument usersPath s6.feederId)
          if i.patchOk then
            let s8 := s7.print .userPatched
            let s9 := { s8 with lastScheduleFetch := i.now }
            let s10 := fetchSchedules i.listing s9
            { s10 with currentState := .OPERATIONAL }
          else
            { s7.print .patchFailed with currentState := .ERROR }
        else
          { s4.print .parseIdFailed with currentState := .ERROR }
      else
        { s2.print .createFailed with currentState := .ERROR }

/-- Answers of the outside world to `authenticateWithFirebase`. -/
structure AuthIn where
  ready : Bool
  now : Nat
  listing : Option (List ScheduleDoc)

/-- The sketch's `authenticateWithFirebase()`; the configuration of the service
account followed by `Firebase.begin` is the single operation `firebaseBegin`. -/
def authenticateWithFirebase (i : AuthIn) (s : Device) : Device :=
  if i.ready then
    let s1 := s.print .authAlready
    let s2 := { s1 with feederId := s1.preferences.feederId }
    if s2.feederId.length > 0 then
      let s3 := { s2 with currentState := .OPERATIONAL }
      let s4 := { s3 with lastScheduleFetch := i.now }
      fetchSchedules i.listing s4
    else
      { s2 with currentState := .REGISTERING_FIREBASE }
  else
    (s.print .authConfiguring).emit .firebaseBegin

/-! ## Connectivity -/

/-- The retry loop of `connectToWiFi`: `status k` tells whether the `k`-th
call of `WiFi.status()` returns `WL_CONNECTED`; the first argument counts the
attempts still allowed (`30 - attempts`). Returns the final `attempts`. -/
def wifiWaitLoop (status : Nat → Bool) : Nat → Nat → Device → Nat × Device
  | 0, attempts, s => (attempts, s)
  | budget + 1, attempts, s =>
    if !status attempts then
      wifiWaitLoop status budget (attempts + 1) ((s.emit (.delay 500)).print .wifiDot)
    else (attempts, s)

/-- The sketch's `connectToWiFi()`. -/
def connectToWiFi (status : Nat → Bool) (s : Device) : Device :=
  let s1 := s.print .wifiConnecting
  let s2 := s1.emit (.wifiBegin s1.preferences.ssid s1.preferences.pass)
  let r := wifiWaitLoop status 30 0 s2
  let attempts := r.1
  let s3 := r.2
  if status (attempts + 1) then
    { s3.print .wifiConnected with currentState := .AUTHENTICATING_FIREBASE }
  else
    { s3.print .wifiFailed with currentState := .ERROR }

/-! ## Provisioning listener -/

/-- Value of a hexadecimal digit. -/
def hexDigit (c : Char) : Option Nat :=
  if c.isDigit then some (c.toNat - 48)
  else if 'a' ≤ c ∧ c ≤ 'f' then some (c.toNat - 87)
  else if 'A' ≤ c ∧ c ≤ 'F' then some (c.toNat - 55)
  else none

/-- The call `strtol(temp, NULL, 16)` of `urlDecode`, where `temp` is `"0x"`
followed by the two characters `c1`, `c2`. -/
def strtolHex2 (c1 c2 : Char) : Nat :=
  match hexDigit c1 with
  | none => 0
  | some a =>
    match hexDigit c2 with
    | none => a
    | some b => a * 16 + b

/-- The loop of `urlDecode`; `charAt` past the end of the string yields NUL. -/
def urlDecodeAux : List Char → List Char
  | [] => []
  | [c] =>
    if c = '+' then [' ']
    else if c = '%' then [Char.ofNat (strtolHex2 (Char.ofNat 0) (Char.ofNat 0))]
    else [c]
  | [c, c1] =>
    if c = '+' then ' ' :: urlDecodeAux [c1]
    else if c = '%' then [Char.ofNat (strtolHex2 c1 (Char.ofNat 0))]
    else c :: urlDecodeAux [c1]
  | c :: c1 :: c2 :: rest =>
    if c = '+' then ' ' :: urlDecodeAux (c1 :: c2 :: rest)
    else if c = '%' then Char.ofNat (strtolHex2 c1 c2) :: urlDecodeAux rest
    else c :: urlDecodeAux (c1 :: c2 :: rest)

/-- The sketch's `urlDecode(String str)`. -/
def urlDecode (str : String) : String := String.mk (urlDecodeAux str.data)

/-- The loop of `handleClient` that lists the scanned networks as JSON. -/
def networksJson : List (String × Int) → Bool → String → String
  | [], _, json => json
  | (ssid, rssi) :: rest, first, json =>
    let j1 := if first then json else json ++ ","
    let j2 := j1 ++ "\x7b\"ssid\":\""
    let j3 := j2 ++ ssid
    let j4 := j3 ++ "\",\"rssi\":"
    let j5 := j4 ++ toString rssi
    networksJson rest false (j5 ++ "\x7d")

/-- What one pass of `handleClient` gets from a connected client: the request
text accumulated in `header` when the read loop ends, whether the loop ended
at the empty line that closes the headers (rather than by disconnection or
time-out), the bytes then read as the body, and the result of the scan. -/
structure ClientExchange where
  header : String
  headersDone : Bool
  body : String
  networks : List (String × Int)

/-- The sketch's `handleClient()`; `none` when `server.available()` yields no
client. -/
def handleClient (client : Option ClientExchange) (s : Device) : Device :=
  match client with
  | none => s
  | some c =>
    let s1 :=
      if c.headersDone then
        if indexOfStr c.header "GET /networks" ≥ 0 then
          let json := networksJson c.networks true "[" ++ "]"
          let a := s.emit (.clientPrintln "HTTP/1.1 200 OK")
          let b := a.emit (.clientPrintln "Content-type:application/json")
          let d := b.emit (.clientPrintln "Connection: close")
          let e := d.emit (.clientPrintln "")
          e.emit (.clientPrintln json)
        else if indexOfStr c.header "POST /save" ≥ 0 then
          let body := c.body
          let ssid_start := indexOfStr body "ssid=" + 5
          let ssid_end := indexOfStrFrom body "&" ssid_start
          let ssid := urlDecode (substring body ssid_start ssid_end)
          let pass_start := indexOfStr body "pass=" + 5
          let pass_end := indexOfStrFrom body "&" pass_start
          let pass := urlDecode (substring body pass_start pass_end)
          let uid_start := indexOfStr body "uid=" + 4
          let uid := urlDecode (substringFrom body uid_start)
          let a := { s with preferences := { s.preferences with ssid := ssid } }.emit
            (.putString "ssid" ssid)
          let b := { a with preferences := { a.preferences with pass := pass } }.emit
            (.putString "pass" pass)
          let d := { b with preferences := { b.preferences with owner_uid := uid } }.emit
            (.putString "owner_uid" uid)
          let e := d.emit (.clientPrintln
            "HTTP/1.1 200 OK\r\nContent-type:text/html\r\n\r\n<h1>Saved! Restarting...</h1>")
          e.emit (.delay 100)
        else s
      else s
    let s2 := s1.emit .clientStop
    if indexOfStr c.header "POST /save" ≥ 0 then
      { (s2.print .credentialsSaved).emit .restart with restarted := true }
    else s2

/-- The sketch's `startProvisioningServer()`. -/
def startProvisioningServer (s : Device) : Device :=
  let s1 := s.print .apStarting
  let s2 := s1.emit .wifiSoftAP
  let s3 := s2.print .apAddress
  let s4 := s3.emit .serverBegin
  s4.print .webServerStarted

/-! ## Orchestrator -/

/-- The values of the globals at program start. -/
def initialDevice (prefs : Preferences) : Device :=
  { currentState := .PROVISIONING_MODE
    preferences := prefs
    feederId := ""
    streamActive := false
    lastCmdTimestamp := 0
    bootTimestamp := 0
    schedules := []
    lastScheduleCheck := 0
    lastScheduleFetch := 0
    newCommandAvailable := false
    pendingCommand := { bowl := 0, amount := 0 }
    restarted := false
    trace := [] }

/-- The sketch's `setup()`, run once per boot on the persisted preferences;
`bootMillis` is the reading of `millis()`. -/
def setup (prefs : Preferences) (bootMillis : Nat) : Device :=
  let s0 := { initialDevice prefs with bootTimestamp := bootMillis }
  let s1 := s0.print .booting
  let s2 := s1.emit (.servoAttach .servoBowl1)
  let s3 := s2.emit (.servoAttach .servoBowl2)
  if s3.preferences.ssid.length > 0 then
    { s3 with currentState := .CONNECTING_WIFI }
  else
    startProvisioningServer { s3 with currentState := .PROVISIONING_MODE }

/-- A call made by the stream client into the sketch. -/
inductive StreamCall where
  | event (data : FirebaseStream) (listing : Option (List ScheduleDoc))
  | timeout (flag : Bool)

/-- Run one call of the stream client. -/
def runStreamCall (c : StreamCall) (s : Device) : Device :=
  match c with
  | .event data listing => streamCallback data listing s
  | .timeout flag => streamTimeoutCallback flag s

/-- Run a sequence of calls of the stream client, in order. -/
def runStreamCalls : List StreamCall → Device → Device
  | [], s => s
  | c :: cs, s => runStreamCalls cs (runStreamCall c s)

/-- Answers of the outside world during one pass through the `OPERATIONAL`
case of `loop()`: for `startRTDBStream`, for the two `millis()` readings and
`localtime` of `checkSchedules`, for the two `millis()` readings and the listing
of the hourly fetch, for `Firebase.ready()` and `readStream` (with the callbacks
the stream client runs during that call), and for `deleteNode`. -/
structure OperationalIn where
  streamReady : Bool
  beginOk : Bool
  checkMillis0 : Nat
  checkMillis1 : Nat
  timeinfo : Tm
  fetchMillis0 : Nat
  fetchMillis1 : Nat
  listing : Option (List ScheduleDoc)
  readReady : Bool
  readOk : Bool
  calls : List StreamCall
  deleteOk : Bool

/-- The `OPERATIONAL` case of `loop()`. -/
def operationalTick (i : OperationalIn) (s : Device) : Device :=
  let s1 := if !s.streamActive then startRTDBStream i.streamReady i.beginOk s else s
  let s2 := checkSchedules i.checkMillis0 i.checkMillis1 i.timeinfo s1
  let s3 :=
    if subU32 i.fetchMillis0 s2.lastScheduleFetch > 3600000 then
      fetchSchedules i.listing { s2 with lastScheduleFetch := i.fetchMillis1 }
    else s2
  let s4 :=
    if i.readReady then
      let s5 := runStreamCalls i.calls (s3.emit .readStream)
      if !i.readOk then { s5.print .streamReadError with streamActive := false } else s5
    else s3
  if s4.newCommandAvailable then
    { processPendingCommand i.deleteOk s4 with newCommandAvailable := false }
  else s4

/-- Answers of the outside world during one iteration of `loop()`, one group
per state handler. -/
structure TickIn where
  client : Option ClientExchange
  wifiStatus : Nat → Bool
  auth : AuthIn
  reg : RegisterIn
  op : OperationalIn

/-- The sketch's `loop()`: one tick. After `ESP.restart()` nothing runs. -/
def loop (i : TickIn) (s : Device) : Device :=
  if s.restarted then s
  else
    let s1 := match s.currentState with
      | .PROVISIONING_MODE => handleClient i.client s
      | .CONNECTING_WIFI => connectToWiFi i.wifiStatus s
      | .AUTHENTICATING_FIREBASE => authenticateWithFirebase i.auth s
      | .REGISTERING_FIREBASE => registerDeviceWithFirestore i.reg s
      | .OPERATIONAL => operationalTick i.op s
      | .ERROR => (s.print .halting).emit (.delay 10000)
    if s1.restarted then s1 else s1.emit (.delay 100)

/-- What can happen to a running session: a tick of `loop()`, or a call of the
stream client between two ticks. -/
inductive Step where
  | tick (i : TickIn)
  | call (c : StreamCall)

/-- Run one step. -/
def step (st : Step) (s : Device) : Device :=
  match st with
  | .tick i => loop i s
  | .call c => if s.restarted then s else runStreamCall c s

/-- Run a sequence of steps, in order. -/
def run : List Step → Device → Device
  | [], s => s
  | st :: rest, s => run rest (step st s)

/-! ## Sample values used to exercise the statements -/

/-- Preferences of a provisioned, not yet registered device. -/
def samplePrefs : Preferences :=
  { ssid := "home", pass := "secret", owner_uid := "u1", feederId := "" }

/-- An operational device with identity `f1` and nothing pending. -/
def sampleDevice : Device :=
  { initialDevice { samplePrefs with feederId := "f1" } with
    currentState := .OPERATIONAL
    feederId := "f1" }

/-- A feed event for the given timestamp, bowl and amount. -/
def feedEvent (t : Nat) (bowl amount : Int) : FirebaseStream :=
  { eventType := "put", dataType := "json", dataPath := "/", payload := ""
    command := some "feed", timestamp := some t, bowl := some bowl, amount := some amount }

/-! ## Specification-side definitions -/

/-- The servo object selected by a valid bowl number. -/
def servoOfBowl (bowlNumber : Int) : ServoId :=
  if bowlNumber = 1 then .servoBowl1 else .servoBowl2

/-- The operations performed by one call of `dispenseFood`. -/
def dispenseTrace (bowlNumber amount : Int) : List Effect :=
  if bowlNumber = 1 ∨ bowlNumber = 2 then
    [ .serial (.servoDispensing amount bowlNumber),
      .serial (.servoRotating (wrapInt32 (amount * DISPENSE_MS_PER_GRAM))),
      .servoWrite (servoOfBowl bowlNumber) 0,
      .delay (toU32 (wrapInt32 (amount * DISPENSE_MS_PER_GRAM))),
      .servoWrite (servoOfBowl bowlNumber) 90 ]
  else [ .serial (.servoDispensing amount bowlNumber) ]

/-- The event is a feed command: a JSON update of the root whose `command` is
`"feed"`. -/
def isFeed (d : FirebaseStream) : Prop :=
  d.dataType = "json" ∧ d.dataPath = "/" ∧ d.command = some "feed"

/-- The timestamp carried by the event (`0` when missing). -/
def eventTimestamp (d : FirebaseStream) : Nat := d.timestamp.getD 0

/-- The bowl carried by the event (`0` when missing). -/
def eventBowl (d : FirebaseStream) : Int := d.bowl.getD 0

/-- The amount carried by the event (`0` when missing). -/
def eventAmount (d : FirebaseStream) : Int := d.amount.getD 0

/-- The event was accepted: it is the last processed timestamp and its command
is staged. -/
def Accepted (d : FirebaseStream) (after : Device) : Prop :=
  after.lastCmdTimestamp = eventTimestamp d
    ∧ after.pendingCommand = { bowl := eventBowl d, amount := eventAmount d }
    ∧ after.newCommandAvailable = true

/-- The event left the de-duplication timestamp and the staging slot as they
were. -/
def Ignored (before after : Device) : Prop :=
  after.lastCmdTimestamp = before.lastCmdTimestamp
    ∧ after.pendingCommand = before.pendingCommand
    ∧ after.newCommandAvailable = before.newCommandAvailable

/-- A device waiting in `REGISTERING_FIREBASE` with an owner and no identity. -/
def sampleRegistering : Device :=
  { initialDevice samplePrefs with currentState := .REGISTERING_FIREBASE }

/-- Registration answers: the create call succeeds with a parsable resource
name and the patch call fails. -/
def samplePatchFails : RegisterIn :=
  { ready := true, createOk := true
    payloadName := some "projects/pawfeeds-v2/databases/(default)/documents/feeders/abc123"
    patchOk := false, now := 1000, listing := none }

/-- A decimal numeral: a non-empty run of digits. -/
def isNumeral (s : String) : Bool :=
  !s.data.isEmpty && s.data.all Char.isDigit

/-- Reading of "parses as a well-formed Schedule" from the data model of the
specification: bowl and portion are positive integers and the time is `HH:MM`
with the hour in 0..23 and the minute in 0..59. -/
def wellFormedDoc (d : ScheduleDoc) : Bool :=
  isNumeral d.bowlNumber && decide (atoi d.bowlNumber > 0)
    && isNumeral d.portionGrams && decide (atoi d.portionGrams > 0)
    && d.time.length == 5 && d.time.data.getD 2 ' ' == ':'
    && isNumeral (substring d.time 0 2) && decide (toInt (substring d.time 0 2) ≤ 23)
    && isNumeral (substring d.time 3 5) && decide (toInt (substring d.time 3 5) ≤ 59)

/-- The cache the specification asks of a successful fetch: the well-formed
entries, converted, in listing order. -/
def specFetchCache (docs : List ScheduleDoc) : List Schedule :=
  (docs.filter wellFormedDoc).map scheduleOfDoc

/-- The console line `fetchSchedules` writes for one loaded document. -/
def loadedLine (d : ScheduleDoc) : Effect :=
  .serial (.loadedSchedule (scheduleOfDoc d).id (scheduleOfDoc d).hour
    (scheduleOfDoc d).minute (scheduleOfDoc d).isEnabled)

/-- A well-formed schedule document: bowl 1, 20 grams, 08:00 on Mondays. -/
def sampleDocA : ScheduleDoc :=
  { name := "projects/pawfeeds-v2/databases/(default)/documents/feeders/f1/schedules/a"
    isEnabled := true, bowlNumber := "1", portionGrams := "20", time := "08:00"
    repeatDays := ["M"] }

/-- A malformed schedule document: the bowl is not a number and the time is
missing. -/
def sampleDocBad : ScheduleDoc :=
  { name := "projects/pawfeeds-v2/databases/(default)/documents/feeders/f1/schedules/b"
    isEnabled := true, bowlNumber := "abc", portionGrams := "20", time := ""
    repeatDays := ["M"] }

/-- A second well-formed schedule document: bowl 2, 15 grams, 18:30 daily. -/
def sampleDocC : ScheduleDoc :=
  { name := "projects/pawfeeds-v2/databases/(default)/documents/feeders/f1/schedules/c"
    isEnabled := true, bowlNumber := "2", portionGrams := "15", time := "18:30"
    repeatDays := ["U", "M", "T", "W", "R", "F", "S"] }

/-- The weekday token of a `tm_wday` value: `"UMTWRFS"` read from Sunday = 0. -/
def weekdayToken (wday : Fin 7) : Char :=
  match wday.val with
  | 0 => 'U'
  | 1 => 'M'
  | 2 => 'T'
  | 3 => 'W'
  | 4 => 'R'
  | 5 => 'F'
  | _ => 'S'

/-- A schedule is due at the local time `now`: it is enabled, its hour and
minute equal the current hour and minute, and its repeat days contain the
token of the current weekday. -/
def scheduleDue (now : Tm) (sched : Schedule) : Bool :=
  sched.isEnabled && decide (sched.hour = now.tm_hour) && decide (sched.minute = now.tm_min)
    && decide (weekdayToken now.tm_wday ∈ sched.repeatDays.data)

/-- The calls of `dispenseFood` recorded in a trace, as `(bowl, grams)` pairs:
every call writes the console line `servoDispensing` on entry. -/
def dispenseCalls : List Effect → List (Int × Int)
  | [] => []
  | .serial (.servoDispensing amount bowlNumber) :: rest =>
    (bowlNumber, amount) :: dispenseCalls rest
  | _ :: rest => dispenseCalls rest

/-- The operations performed by the loop of `checkSchedules` over a cache. -/
def checkTrace (now : Tm) : List Schedule → List Effect
  | [] => []
  | sched :: rest =>
    (if scheduleDue now sched then
      .serial (.triggeringSchedule sched.id)
        :: dispenseTrace sched.bowlNumber sched.portionGrams
     else []) ++ checkTrace now rest

/-- The schedule of the example: 08:00 on Mondays, enabled. -/
def mondayEight (id : String) (bowl grams : Int) : Schedule :=
  { id := id, isEnabled := true, bowlNumber := bowl, portionGrams := grams
    hour := 8, minute := 0, repeatDays := "M" }

/-- An operational device whose cache holds the example schedule for bowl 1,
20 grams. -/
def sampleMonday : Device :=
  { sampleDevice with schedules := [mondayEight "a" 1 20] }

/-- Position of a state in the declaration order of `DeviceState`:
`PROVISIONING_MODE` < `CONNECTING_WIFI` < `AUTHENTICATING_FIREBASE` <
`REGISTERING_FIREBASE` < `OPERATIONAL`, with `ERROR` last. -/
def DeviceState.stage : DeviceState → Nat
  | .PROVISIONING_MODE => 0
  | .CONNECTING_WIFI => 1
  | .AUTHENTICATING_FIREBASE => 2
  | .REGISTERING_FIREBASE => 3
  | .OPERATIONAL => 4
  | .ERROR => 5

/-- The operation is a create-identity call. -/
def isCreate : Effect → Bool
  | .createDocument _ => true
  | _ => false

/-- Number of create-identity calls recorded in a trace. -/
def createCount (tr : List Effect) : Nat := tr.countP isCreate

/-- The second device has the orchestrator state, the persistent store, the
restart flag and the number of create-identity calls of the first. -/
def SameSession (s t : Device) : Prop :=
  t.currentState = s.currentState ∧ t.preferences = s.preferences
    ∧ t.restarted = s.restarted ∧ createCount t.trace = createCount s.trace

/-- What holds throughout a session booted with the identity `id`: the stored
identity is `id`, no create-identity call has been made, and the orchestrator
is neither provisioning nor registering. -/
def Registered (id : String) (s : Device) : Prop :=
  s.preferences.feederId = id ∧ createCount s.trace = 0
    ∧ s.currentState ≠ .REGISTERING_FIREBASE ∧ s.currentState ≠ .PROVISIONING_MODE

/-- Preferences of a provisioned and registered device. -/
def sampleRegisteredPrefs : Preferences :=
  { samplePrefs with feederId := "f1" }

/-- Tick answers in which Wi-Fi is up, the token is ready and every cloud call
succeeds. -/
def sampleTick : TickIn :=
  { client := none
    wifiStatus := fun _ => true
    auth := { ready := true, now := 2000, listing := some [sampleDocA] }
    reg := { ready := true, createOk := true, payloadName := some "x/feeders/zzz"
             patchOk := true, now := 3000, listing := none }
    op := { streamReady := true, beginOk := true, checkMillis0 := 70000, checkMillis1 := 70000
            timeinfo := ⟨1, 8, 0⟩, fetchMillis0 := 70000, fetchMillis1 := 70000
            listing := none, readReady := true, readOk := true
            calls := [.event (feedEvent 5 1 10) none], deleteOk := true } }

/-- The operation is the console line `processPendingCommand` writes right
before it calls `dispenseFood`. -/
def isCommandDispense : Effect → Bool
  | .serial (.processingCommand _ _) => true
  | _ => false

/-- Number of command announcements recorded in a trace: the console line that
`processPendingCommand` writes when it processes the staged command. -/
def commandDispenses (tr : List Effect) : Nat := tr.countP isCommandDispense

/-- The second device has the staging flag, the staged command, the last
processed timestamp and the number of command announcements of the first. -/
def SamePending (s t : Device) : Prop :=
  t.newCommandAvailable = s.newCommandAvailable ∧ t.pendingCommand = s.pendingCommand
    ∧ t.lastCmdTimestamp = s.lastCmdTimestamp
    ∧ commandDispenses t.trace = commandDispenses s.trace

/-- Whether a call of the stream client was an accepted feed event, counted as
0 or 1: the call is accepted when it advances `lastCmdTimestamp`. -/
def acceptedCall (c : StreamCall) (s : Device) : Nat :=
  if (runStreamCall c s).lastCmdTimestamp = s.lastCmdTimestamp then 0 else 1

/-- Number of accepted feed events in a sequence of calls of the stream
client, run in order from `s`. -/
def acceptedInCalls : List StreamCall → Device → Nat
  | [], _ => 0
  | c :: cs, s => acceptedCall c s + acceptedInCalls cs (runStreamCall c s)

/-- The device at the point where the `OPERATIONAL` case of `loop()` reaches
the stream read: after the stream start, the schedule check and the hourly
fetch. -/
def atStreamRead (i : OperationalIn) (s : Device) : Device :=
  let s1 := if !s.streamActive then startRTDBStream i.streamReady i.beginOk s else s
  let s2 := checkSchedules i.checkMillis0 i.checkMillis1 i.timeinfo s1
  if subU32 i.fetchMillis0 s2.lastScheduleFetch > 3600000 then
    fetchSchedules i.listing { s2 with lastScheduleFetch := i.fetchMillis1 }
  else s2

/-- Number of feed events accepted during one `OPERATIONAL` tick. -/
def acceptedInOperationalTick (i : OperationalIn) (s : Device) : Nat :=
  if i.readReady then acceptedInCalls i.calls ((atStreamRead i s).emit .readStream) else 0

/-- Number of feed events accepted during one step of a session. -/
def acceptedInStep (st : Step) (s : Device) : Nat :=
  if s.restarted then 0
  else
    match st with
    | .tick i =>
      match s.currentState with
      | .OPERATIONAL => acceptedInOperationalTick i.op s
      | _ => 0
    | .call c => acceptedCall c s

/-- Number of feed events accepted during a sequence of steps run from `s`. -/
def acceptedInRun : List Step → Device → Nat
  | [], _ => 0
  | st :: rest, s => acceptedInStep st s + acceptedInRun rest (step st s)

/-- The staging slot counted as 0 (free) or 1 (a command awaits the tick). -/
def pendingCount (s : Device) : Nat := if s.newCommandAvailable then 1 else 0

/-- The operation is the console line `checkSchedules` writes when a schedule
triggers. -/
def isTrigger : Effect → Bool
  | .serial (.triggeringSchedule _) => true
  | _ => false

/-- Number of schedule triggers recorded in a trace. -/
def scheduleTriggers (tr : List Effect) : Nat := tr.countP isTrigger

/-- The second device has an empty schedule cache and as many schedule
triggers in its trace as the first. -/
def Quiet (s t : Device) : Prop :=
  t.schedules = [] ∧ scheduleTriggers t.trace = scheduleTriggers s.trace

/-- Every list-documents request made on behalf of this call of the stream
client fails. -/
def callFails : StreamCall → Bool
  | .event _ listing => listing.isNone
  | .timeout _ => true

/-- Every list-documents request made during this tick fails. -/
def tickFails (i : TickIn) : Bool :=
  i.auth.listing.isNone && i.reg.listing.isNone && i.op.listing.isNone
    && i.op.calls.all callFails

/-- Every list-documents request made during this step fails. -/
def stepFails : Step → Bool
  | .tick i => tickFails i
  | .call c => callFails c

/-- The second device has the recorded calls of `dispenseFood` and the number
of schedule triggers of the first. -/
def SameCalls (s t : Device) : Prop :=
  dispenseCalls t.trace = dispenseCalls s.trace
    ∧ scheduleTriggers t.trace = scheduleTriggers s.trace

/-- The device right after the stream read of the `OPERATIONAL` case of
`loop()`, where the tick tests `newCommandAvailable`. -/
def afterStreamRead (i : OperationalIn) (s : Device) : Device :=
  if i.readReady then
    if !i.readOk then
      { (runStreamCalls i.calls ((atStreamRead i s).emit .readStream)).print
          .streamReadError with streamActive := false }
    else runStreamCalls i.calls ((atStreamRead i s).emit .readStream)
  else atStreamRead i s

/-- The call of `dispenseFood` owed to the staging slot of a device: the staged
bowl and amount when a command is flagged and both are positive, none
otherwise. -/
def stagedCall (s : Device) : List (Int × Int) :=
  if s.newCommandAvailable = true ∧ s.pendingCommand.amount > 0 ∧ s.pendingCommand.bowl > 0 then
    [(s.pendingCommand.bowl, s.pendingCommand.amount)]
  else []

/-- Between the two devices every recorded call of `dispenseFood` is matched
by one announcement, a schedule trigger or a command announcement: the three
counts grow by `calls = triggers + commands`. -/
def Accounted (s t : Device) : Prop :=
  (dispenseCalls t.trace).length + scheduleTriggers s.trace + commandDispenses s.trace
    = (dispenseCalls s.trace).length + scheduleTriggers t.trace + commandDispenses t.trace

/-! ## Explicit forms of the leaf functions -/

theorem dispenseFood_eq (bowlNumber amount : Int) (s : Device) :
    dispenseFood bowlNumber amount s
      = { s with trace := s.trace ++ dispenseTrace bowlNumber amount } := by
  unfold dispenseFood dispenseTrace servoOfBowl
  by_cases h1 : bowlNumber = 1
  · subst h1
    simp [Device.emit, Device.print]
  · by_cases h2 : bowlNumber = 2
    · subst h2
      simp [Device.emit, Device.print]
    · simp [h1, h2, Device.emit, Device.print]

theorem wrapInt32_of_fits (x : Int) (hlo : -2147483648 ≤ x) (hhi : x ≤ 2147483647) :
    wrapInt32 x = x := by
  unfold wrapInt32
  omega

theorem toU32_of_nonneg (x : Int) (hlo : 0 ≤ x) (hhi : x < 4294967296) :
    toU32 x = x.toNat := by
  unfold toU32
  rw [Int.emod_eq_of_lt hlo hhi]

/-! ## Actuation: verified properties -/

/-- C7 (as amended): for a valid bowl (1 or 2) and a portion between 0 and
42949672 grams, so that `grams * 50` is non-negative and fits the 32-bit `int`
in which it is computed, `dispenseFood` performs exactly: the two console
lines, the write of position 0 to that bowl's servo, a hold of `grams * 50`
milliseconds, and the write of position 90 to the same servo; nothing else in
the device changes. -/
theorem dispenseFood_valid_bowl (bowl grams : Int) (s : Device)
    (hbowl : bowl = 1 ∨ bowl = 2) (hlo : 0 ≤ grams) (hhi : grams ≤ 42949672) :
    dispenseFood bowl grams s
      = { s with trace := s.trace ++
            [ .serial (.servoDispensing grams bowl),
              .serial (.servoRotating (grams * DISPENSE_MS_PER_GRAM)),
              .servoWrite (servoOfBowl bowl) 0,
              .delay (grams * DISPENSE_MS_PER_GRAM).toNat,
              .servoWrite (servoOfBowl bowl) 90 ] } := by
  have hw : wrapInt32 (grams * DISPENSE_MS_PER_GRAM) = grams * DISPENSE_MS_PER_GRAM := by
    apply wrapInt32_of_fits <;> unfold DISPENSE_MS_PER_GRAM <;> omega
  have hu : toU32 (grams * DISPENSE_MS_PER_GRAM) = (grams * DISPENSE_MS_PER_GRAM).toNat := by
    apply toU32_of_nonneg <;> unfold DISPENSE_MS_PER_GRAM <;> omega
  rw [dispenseFood_eq]
  simp [dispenseTrace, hbowl, hw, hu]

/-- Witness for C7: ten grams from bowl 1 hold the servo for 500 ms. -/
theorem dispenseFood_valid_bowl_witness :
    (dispenseFood 1 10 sampleDevice).trace
      = [ .serial (.servoDispensing 10 1), .serial (.servoRotating 500),
          .servoWrite .servoBowl1 0, .delay 500, .servoWrite .servoBowl1 90 ] := by
  have h := dispenseFood_valid_bowl 1 10 sampleDevice (Or.inl rfl) (by decide) (by decide)
  rw [h]
  decide

/-- C7 fails as stated for portions outside that range: a portion of -1 gram
holds the servo for 4294967246 ms, and a portion of 85899346 grams, whose
product with 50 is 4294967300, holds it for 4 ms. -/
theorem dispenseFood_duration_counterexample :
    (dispenseFood 1 (-1) sampleDevice).trace
        = [ .serial (.servoDispensing (-1) 1), .serial (.servoRotating (-50)),
            .servoWrite .servoBowl1 0, .delay 4294967246, .servoWrite .servoBowl1 90 ]
      ∧ (dispenseFood 1 85899346 sampleDevice).trace
        = [ .serial (.servoDispensing 85899346 1), .serial (.servoRotating 4),
            .servoWrite .servoBowl1 0, .delay 4, .servoWrite .servoBowl1 90 ]
      ∧ (85899346 : Int) * DISPENSE_MS_PER_GRAM = 4294967300 := by
  refine ⟨?_, ?_, ?_⟩ <;> decide

/-- C8: for a bowl number other than 1 and 2, `dispenseFood` only writes its
first console line: no servo is written, no delay is made, and every global
(orchestrator state included) keeps its value. -/
theorem dispenseFood_invalid_bowl (bowl grams : Int) (s : Device)
    (h1 : bowl ≠ 1) (h2 : bowl ≠ 2) :
    dispenseFood bowl grams s
      = { s with trace := s.trace ++ [ .serial (.servoDispensing grams bowl) ] } := by
  rw [dispenseFood_eq]
  simp [dispenseTrace, h1, h2]

/-- Witness for C8: bowl 3 is ignored. -/
theorem dispenseFood_invalid_bowl_witness :
    dispenseFood 3 10 sampleDevice
      = { sampleDevice with trace := sampleDevice.trace ++ [ .serial (.servoDispensing 10 3) ] } :=
  dispenseFood_invalid_bowl 3 10 sampleDevice (by decide) (by decide)

theorem fetchLoop_eq (ds : List ScheduleDoc) (s : Device) :
    fetchLoop ds s
      = { s with schedules := s.schedules ++ ds.map scheduleOfDoc
                 trace := s.trace ++ ds.map loadedLine } := by
  induction ds generalizing s with
  | nil => simp [fetchLoop]
  | cons d ds ih =>
    simp [fetchLoop, ih, loadedLine, Device.print, Device.emit]

theorem streamCallback_feed (d : FirebaseStream) (l : Option (List ScheduleDoc))
    (s : Device) (hf : isFeed d) :
    streamCallback d l s
      = if s.lastCmdTimestamp < eventTimestamp d then
          { s with
            trace := s.trace ++ [.serial (.streamEvent d.eventType d.dataPath d.payload)]
            lastCmdTimestamp := eventTimestamp d
            pendingCommand := { bowl := eventBowl d, amount := eventAmount d }
            newCommandAvailable := true }
        else
          { s with
            trace := s.trace ++ [.serial (.streamEvent d.eventType d.dataPath d.payload)] } := by
  obtain ⟨h1, h2, h3⟩ := hf
  have e1 : (match d.timestamp with | some t => t | none => 0) = eventTimestamp d := by
    unfold eventTimestamp; cases d.timestamp <;> rfl
  have e2 : (match d.bowl with | some b => b | none => 0) = eventBowl d := by
    unfold eventBowl; cases d.bowl <;> rfl
  have e3 : (match d.amount with | some a => a | none => 0) = eventAmount d := by
    unfold eventAmount; cases d.amount <;> rfl
  unfold streamCallback
  simp only [h1, h2, h3, e1, e2, e3, Device.print, Device.emit, and_self, if_true]
  by_cases hfresh : s.lastCmdTimestamp < eventTimestamp d
  · have hpos : eventTimestamp d > 0 := by omega
    simp [hfresh, hpos]
  · have hn : ¬ (eventTimestamp d > 0 ∧ eventTimestamp d > s.lastCmdTimestamp) := by
      intro h; exact hfresh h.2
    simp [hfresh, hn]

/-! ## Command stream: verified properties -/

/-- C1: for feed events with timestamps `t1 < t2`, both above the last
processed timestamp, delivering `t1` then `t2` accepts both (each becomes the
last processed timestamp and has its command staged), and a repeated delivery
of either is ignored; delivering `t2` then `t1` accepts `t2` and ignores
`t1`. -/
theorem streamCallback_timestamp_order (s : Device) (d1 d2 : FirebaseStream)
    (l1 l2 l3 : Option (List ScheduleDoc)) (hf1 : isFeed d1) (hf2 : isFeed d2)
    (h0 : s.lastCmdTimestamp < eventTimestamp d1)
    (h12 : eventTimestamp d1 < eventTimestamp d2) :
    Accepted d1 (streamCallback d1 l1 s)
      ∧ Accepted d2 (streamCallback d2 l2 (streamCallback d1 l1 s))
      ∧ Ignored (streamCallback d1 l1 s) (streamCallback d1 l2 (streamCallback d1 l1 s))
      ∧ Ignored (streamCallback d2 l2 (streamCallback d1 l1 s))
          (streamCallback d1 l3 (streamCallback d2 l2 (streamCallback d1 l1 s)))
      ∧ Ignored (streamCallback d2 l2 (streamCallback d1 l1 s))
          (streamCallback d2 l3 (streamCallback d2 l2 (streamCallback d1 l1 s)))
      ∧ Accepted d2 (streamCallback d2 l1 s)
      ∧ Ignored (streamCallback d2 l1 s) (streamCallback d1 l2 (streamCallback d2 l1 s)) := by
  have h02 : s.lastCmdTimestamp < eventTimestamp d2 := by omega
  have n11 : ¬ eventTimestamp d1 < eventTimestamp d1 := by omega
  have n21 : ¬ eventTimestamp d2 < eventTimestamp d1 := by omega
  have n22 : ¬ eventTimestamp d2 < eventTimestamp d2 := by omega
  simp [streamCallback_feed, hf1, hf2, h0, h12, h02, n11, n21, n22, Accepted, Ignored]

/-- Witness for C1: timestamps 5 and 9 on a device that has processed none. -/
theorem streamCallback_timestamp_order_witness :
    Accepted (feedEvent 5 1 10) (streamCallback (feedEvent 5 1 10) none sampleDevice)
      ∧ Accepted (feedEvent 9 2 20)
          (streamCallback (feedEvent 9 2 20) none
            (streamCallback (feedEvent 5 1 10) none sampleDevice))
      ∧ Ignored (streamCallback (feedEvent 9 2 20) none sampleDevice)
          (streamCallback (feedEvent 5 1 10) none
            (streamCallback (feedEvent 9 2 20) none sampleDevice)) :=
  have h := streamCallback_timestamp_order sampleDevice (feedEvent 5 1 10) (feedEvent 9 2 20)
    none none none ⟨rfl, rfl, rfl⟩ ⟨rfl, rfl, rfl⟩ (by decide) (by decide)
  ⟨h.1, h.2.1, h.2.2.2.2.2.2⟩

/-- C2 fails as stated: a fresh feed event with amount 0 is staged; the
staging slot and the flag both change. -/
theorem streamCallback_zero_amount_counterexample :
    eventAmount (feedEvent 5 1 0) = 0
      ∧ sampleDevice.newCommandAvailable = false
      ∧ (streamCallback (feedEvent 5 1 0) none sampleDevice).newCommandAvailable = true
      ∧ sampleDevice.pendingCommand = { bowl := 0, amount := 0 }
      ∧ (streamCallback (feedEvent 5 1 0) none sampleDevice).pendingCommand
          = { bowl := 1, amount := 0 } := by
  refine ⟨?_, ?_, ?_, ?_, ?_⟩ <;> decide

/-- C2 (as amended): a feed event whose amount is 0 (or missing) or whose bowl
is not positive (or missing) is never actuated. If its timestamp is not above
the last processed one it is ignored; otherwise `streamCallback` stages it like
any other feed event, and `processPendingCommand` on the resulting device does
nothing at all (no dispense, no acknowledgement). -/
theorem invalid_feed_never_actuated (s : Device) (d : FirebaseStream)
    (l : Option (List ScheduleDoc)) (deleteOk : Bool) (hf : isFeed d)
    (hbad : eventAmount d = 0 ∨ eventBowl d ≤ 0) :
    (s.lastCmdTimestamp < eventTimestamp d →
        Accepted d (streamCallback d l s)
          ∧ processPendingCommand deleteOk (streamCallback d l s) = streamCallback d l s)
      ∧ (¬ s.lastCmdTimestamp < eventTimestamp d → Ignored s (streamCallback d l s)) := by
  constructor
  · intro hfresh
    have hguard : ¬ (eventAmount d > 0 ∧ eventBowl d > 0) := by
      intro h; omega
    simp [streamCallback_feed, hf, hfresh, Accepted, processPendingCommand, hguard]
  · intro hstale
    simp [streamCallback_feed, hf, hstale, Ignored]

/-- Witness for C2: a fresh event for bowl 1 with amount 0. -/
theorem invalid_feed_never_actuated_witness :
    Accepted (feedEvent 5 1 0) (streamCallback (feedEvent 5 1 0) none sampleDevice)
      ∧ processPendingCommand true (streamCallback (feedEvent 5 1 0) none sampleDevice)
          = streamCallback (feedEvent 5 1 0) none sampleDevice :=
  (invalid_feed_never_actuated sampleDevice (feedEvent 5 1 0) none true ⟨rfl, rfl, rfl⟩
    (Or.inl rfl)).1 (by decide)

theorem fetchSchedules_listed (docs : List ScheduleDoc) (s : Device)
    (hid : s.feederId.length ≠ 0) :
    fetchSchedules (some docs) s
      = { s with
          schedules := docs.map scheduleOfDoc
          trace := s.trace ++
            ([ .serial .fetchingSchedules,
               .listDocuments (("feeders/" ++ s.feederId) ++ "/schedules") ]
              ++ docs.map loadedLine) } := by
  simp [fetchSchedules, hid, fetchLoop_eq, Device.print, Device.emit]

/-! ## Registration: verified properties -/

/-- C3 fails as stated: when the create call succeeds and the patch call
fails, the stored key `feederId`, empty before, holds the new identity
afterwards (the state is `ERROR`). -/
theorem register_patch_failure_counterexample :
    sampleRegistering.preferences.feederId = ""
      ∧ (registerDeviceWithFirestore samplePatchFails sampleRegistering).preferences.feederId
          = "abc123"
      ∧ (registerDeviceWithFirestore samplePatchFails sampleRegistering).currentState
          = .ERROR := by
  refine ⟨?_, ?_, ?_⟩ <;> decide

/-- C3 (as amended): with a ready token and a non-empty owner id, when the
create call succeeds with a parsable id and the patch call fails, the new
identity has already been stored under the key `feederId` before the patch was
attempted, no schedule fetch is made, and the orchestrator state is `ERROR`. -/
theorem register_patch_failure (s : Device) (i : RegisterIn)
    (hready : i.ready = true) (howner : s.preferences.owner_uid.length ≠ 0)
    (hcreate : i.createOk = true)
    (hparse : (parseFeederIdFromResponse i.payloadName).length > 0)
    (hpatch : i.patchOk = false) :
    registerDeviceWithFirestore i s
      = { s with
          currentState := .ERROR
          feederId := parseFeederIdFromResponse i.payloadName
          preferences :=
            { s.preferences with feederId := parseFeederIdFromResponse i.payloadName }
          trace := s.trace ++
            [ .serial .registering,
              .createDocument s.preferences.owner_uid,
              .serial .feederDocCreated,
              .putString "feederId" (parseFeederIdFromResponse i.payloadName),
              .patchDocument ("users/" ++ s.preferences.owner_uid)
                (parseFeederIdFromResponse i.payloadName),
              .serial .patchFailed ] } := by
  simp [registerDeviceWithFirestore, hready, howner, hcreate, hparse, hpatch,
    Device.print, Device.emit]

/-- Witness for C3: the identity `abc123` is stored although the patch failed. -/
theorem register_patch_failure_witness :
    (registerDeviceWithFirestore samplePatchFails sampleRegistering).preferences.feederId
        = parseFeederIdFromResponse samplePatchFails.payloadName
      ∧ (registerDeviceWithFirestore samplePatchFails sampleRegistering).currentState
        = .ERROR := by
  have h := register_patch_failure sampleRegistering samplePatchFails rfl (by decide) rfl
    (by decide) rfl
  rw [h]
  exact ⟨rfl, rfl⟩

/-! ## Schedule fetch: verified properties -/

/-- C4 fails as stated: a listing of one malformed and two well-formed
documents yields a cache of three entries, not the two well-formed ones; the
malformed document is loaded with bowl 0 at 00:00. -/
theorem fetchSchedules_malformed_counterexample :
    wellFormedDoc sampleDocA = true ∧ wellFormedDoc sampleDocBad = false
      ∧ wellFormedDoc sampleDocC = true
      ∧ (specFetchCache [sampleDocA, sampleDocBad, sampleDocC]).length = 2
      ∧ (fetchSchedules (some [sampleDocA, sampleDocBad, sampleDocC])
          sampleDevice).schedules.length = 3
      ∧ (fetchSchedules (some [sampleDocA, sampleDocBad, sampleDocC])
          sampleDevice).schedules
        = [ { id := "a", isEnabled := true, bowlNumber := 1, portionGrams := 20,
              hour := 8, minute := 0, repeatDays := "M" },
            { id := "b", isEnabled := true, bowlNumber := 0, portionGrams := 20,
              hour := 0, minute := 0, repeatDays := "M" },
            { id := "c", isEnabled := true, bowlNumber := 2, portionGrams := 15,
              hour := 18, minute := 30, repeatDays := "UMTWRFS" } ] := by
  refine ⟨?_, ?_, ?_, ?_, ?_, ?_⟩ <;> decide

/-- C4 (as amended): for every successful listing (and a non-empty identity),
`fetchSchedules` yields a cache with exactly one entry per listed document, in
listing order, each built by `scheduleOfDoc`; no document is skipped, so the
cache has as many entries as the listing. -/
theorem fetchSchedules_keeps_every_entry (docs : List ScheduleDoc) (s : Device)
    (hid : s.feederId.length ≠ 0) :
    (fetchSchedules (some docs) s).schedules = docs.map scheduleOfDoc
      ∧ (fetchSchedules (some docs) s).schedules.length = docs.length := by
  rw [fetchSchedules_listed docs s hid]
  simp

/-- Witness for C4: three listed documents give three cache entries. -/
theorem fetchSchedules_keeps_every_entry_witness :
    (fetchSchedules (some [sampleDocA, sampleDocBad, sampleDocC]) sampleDevice).schedules
        = [sampleDocA, sampleDocBad, sampleDocC].map scheduleOfDoc
      ∧ (fetchSchedules (some [sampleDocA, sampleDocBad, sampleDocC])
          sampleDevice).schedules.length = 3 :=
  fetchSchedules_keeps_every_entry [sampleDocA, sampleDocBad, sampleDocC] sampleDevice
    (by decide)

/-! ## Schedule evaluation: auxiliary facts -/

theorem dayOfWeek_eq_weekdayToken (wday : Fin 7) : dayOfWeek wday = weekdayToken wday := by
  revert wday
  decide

theorem indexOfCharAux_none_iff (c : Char) (l : List Char) (i : Nat) :
    indexOfCharAux c l i = none ↔ c ∉ l := by
  induction l generalizing i with
  | nil => simp [indexOfCharAux]
  | cons x xs ih =>
    by_cases hx : x = c
    · simp [indexOfCharAux, hx]
    · have hx2 : ¬ c = x := fun h => hx h.symm
      simp [indexOfCharAux, hx, hx2, ih]

theorem indexOfChar_ne_neg_one_iff (s : String) (c : Char) :
    indexOfChar s c ≠ -1 ↔ c ∈ s.data := by
  unfold indexOfChar
  cases h : indexOfCharAux c s.data 0 with
  | none =>
    have := (indexOfCharAux_none_iff c s.data 0).mp h
    simp [this]
  | some i =>
    have hm : c ∈ s.data := by
      by_contra hc
      rw [(indexOfCharAux_none_iff c s.data 0).mpr hc] at h
      cases h
    simp only [hm, iff_true]
    omega

theorem checkLoop_eq (now : Tm) (l : List Schedule) (s : Device) :
    checkLoop now l s = { s with trace := s.trace ++ checkTrace now l } := by
  induction l generalizing s with
  | nil => simp [checkLoop, checkTrace]
  | cons sched rest ih =>
    by_cases hd : scheduleDue now sched = true
    · have hd2 := hd
      simp only [scheduleDue, Bool.and_eq_true, decide_eq_true_eq] at hd2
      obtain ⟨⟨⟨he, hh⟩, hm⟩, hw⟩ := hd2
      have hidx : indexOfChar sched.repeatDays (dayOfWeek now.tm_wday) ≠ -1 := by
        rw [dayOfWeek_eq_weekdayToken]
        exact (indexOfChar_ne_neg_one_iff _ _).mpr hw
      simp [checkLoop, checkTrace, ih, hd, he, hh, hm, hidx, dispenseFood_eq,
        Device.print, Device.emit]
    · have hd2 : scheduleDue now sched = false := by simpa using hd
      have hcond : ¬ ((sched.isEnabled && sched.hour == now.tm_hour
            && sched.minute == now.tm_min) = true
          ∧ indexOfChar sched.repeatDays (dayOfWeek now.tm_wday) ≠ -1) := by
        rintro ⟨h1, h2⟩
        rw [dayOfWeek_eq_weekdayToken] at h2
        have hw := (indexOfChar_ne_neg_one_iff _ _).mp h2
        simp only [Bool.and_eq_true, beq_iff_eq] at h1
        have : scheduleDue now sched = true := by
          simp [scheduleDue, h1.1.1, h1.1.2, h1.2, hw]
        rw [this] at hd2
        cases hd2
      have hstep : checkLoop now (sched :: rest) s = checkLoop now rest s := by
        rw [checkLoop]
        by_cases h1 : (sched.isEnabled && sched.hour == now.tm_hour
            && sched.minute == now.tm_min) = true
        · have h2 : ¬ indexOfChar sched.repeatDays (dayOfWeek now.tm_wday) ≠ -1 :=
            fun h2 => hcond ⟨h1, h2⟩
          have h3 : (indexOfChar sched.repeatDays (dayOfWeek now.tm_wday) != -1) = false := by
            simpa using h2
          simp [h1, h3]
        · simp [h1]
      rw [hstep, ih]
      simp [checkTrace, hd2]

theorem dispenseCalls_append (a b : List Effect) :
    dispenseCalls (a ++ b) = dispenseCalls a ++ dispenseCalls b := by
  induction a with
  | nil => simp [dispenseCalls]
  | cons e rest ih =>
    cases e with
    | serial line => cases line <;> simp [dispenseCalls, ih]
    | _ => simp [dispenseCalls, ih]

theorem dispenseCalls_dispenseTrace (bowl grams : Int) :
    dispenseCalls (dispenseTrace bowl grams) = [(bowl, grams)] := by
  unfold dispenseTrace
  split <;> simp [dispenseCalls]

theorem dispenseCalls_checkTrace (now : Tm) (l : List Schedule) :
    dispenseCalls (checkTrace now l)
      = (l.filter (scheduleDue now)).map (fun x => (x.bowlNumber, x.portionGrams)) := by
  induction l with
  | nil => simp [checkTrace, dispenseCalls]
  | cons sched rest ih =>
    by_cases hd : scheduleDue now sched = true
    · simp [checkTrace, hd, dispenseCalls_append, dispenseCalls, dispenseCalls_dispenseTrace, ih]
    · have hd2 : scheduleDue now sched = false := by simpa using hd
      simp [checkTrace, hd2, ih]

theorem checkSchedules_eval (m0 m1 : Nat) (now : Tm) (s : Device)
    (h : ¬ subU32 m0 s.lastScheduleCheck < 60000) :
    checkSchedules m0 m1 now s
      = { s with lastScheduleCheck := m1, trace := s.trace ++ checkTrace now s.schedules } := by
  simp [checkSchedules, h, checkLoop_eq]

theorem checkSchedules_limited (m0 m1 : Nat) (now : Tm) (s : Device)
    (h : subU32 m0 s.lastScheduleCheck < 60000) :
    checkSchedules m0 m1 now s = s := by
  simp [checkSchedules, h]

theorem subU32_later (a0 e d : Nat) (hed : e ≤ d) (hd : d < 60000) :
    subU32 ((a0 + d) % 4294967296) ((a0 + e) % 4294967296) < 60000 := by
  unfold subU32
  omega

/-! ## Schedule evaluation: verified properties -/

/-- C6: take two calls of `checkSchedules`, the first testing the clock at
`a0` and storing the reading taken `e` ms later, the second testing the clock
`d` ms after `a0`, with `e ≤ d < 60000` (readings wrap at 2^32). Then the
first call returns the device unchanged, or the second call returns unchanged
every device whose `lastScheduleCheck` is the one the first call left; so at
most one of the two calls evaluates the cache, and the calls of `dispenseFood`
made by both together are those of a single evaluation. -/
theorem checkSchedules_once_per_minute (s : Device) (a0 e d b1 : Nat) (nowA nowB : Tm)
    (hed : e ≤ d) (hd : d < 60000) :
    (checkSchedules a0 ((a0 + e) % 4294967296) nowA s = s
        ∨ ∀ t : Device,
            t.lastScheduleCheck
                = (checkSchedules a0 ((a0 + e) % 4294967296) nowA s).lastScheduleCheck →
              checkSchedules ((a0 + d) % 4294967296) b1 nowB t = t)
      ∧ (checkSchedules ((a0 + d) % 4294967296) b1 nowB
            (checkSchedules a0 ((a0 + e) % 4294967296) nowA s)
          = checkSchedules ((a0 + d) % 4294967296) b1 nowB s
        ∨ checkSchedules ((a0 + d) % 4294967296) b1 nowB
            (checkSchedules a0 ((a0 + e) % 4294967296) nowA s)
          = checkSchedules a0 ((a0 + e) % 4294967296) nowA s) := by
  by_cases hlim : subU32 a0 s.lastScheduleCheck < 60000
  · have h1 := checkSchedules_limited a0 ((a0 + e) % 4294967296) nowA s hlim
    exact ⟨Or.inl h1, Or.inl (by rw [h1])⟩
  · have h1 := checkSchedules_eval a0 ((a0 + e) % 4294967296) nowA s hlim
    have hsecond : ∀ t : Device,
        t.lastScheduleCheck
            = (checkSchedules a0 ((a0 + e) % 4294967296) nowA s).lastScheduleCheck →
          checkSchedules ((a0 + d) % 4294967296) b1 nowB t = t := by
      intro t ht
      apply checkSchedules_limited
      rw [ht, h1]
      exact subU32_later a0 e d hed hd
    exact ⟨Or.inr hsecond, Or.inr (hsecond _ rfl)⟩

/-- Witness for C6: a call at 60000 ms triggers the example schedule, a second
call 100 ms later changes nothing. -/
theorem checkSchedules_once_per_minute_witness :
    dispenseCalls (checkSchedules 60000 60000 ⟨1, 8, 0⟩ sampleMonday).trace = [(1, 20)]
      ∧ checkSchedules 60100 60100 ⟨1, 8, 0⟩
            (checkSchedules 60000 60000 ⟨1, 8, 0⟩ sampleMonday)
          = checkSchedules 60000 60000 ⟨1, 8, 0⟩ sampleMonday := by
  have h := (checkSchedules_once_per_minute sampleMonday 60000 0 100 60100 ⟨1, 8, 0⟩ ⟨1, 8, 0⟩
    (by decide) (by decide)).1
  refine ⟨by decide, ?_⟩
  rcases h with h | h
  · exact absurd h (by decide)
  · exact h _ rfl

/-! ## Orchestrator: what the leaf functions leave alone -/

theorem SameSession.refl (s : Device) : SameSession s s :=
  ⟨rfl, rfl, rfl, rfl⟩

theorem SameSession.trans {a b c : Device} (h1 : SameSession a b) (h2 : SameSession b c) :
    SameSession a c :=
  ⟨h2.1.trans h1.1, h2.2.1.trans h1.2.1, h2.2.2.1.trans h1.2.2.1, h2.2.2.2.trans h1.2.2.2⟩

theorem createCount_append (a b : List Effect) :
    createCount (a ++ b) = createCount a + createCount b := by
  simp [createCount, List.countP_append]

theorem sameSession_trace (s : Device) (tr : List Effect) (h : createCount tr = 0) :
    SameSession s { s with trace := s.trace ++ tr } := by
  refine ⟨rfl, rfl, rfl, ?_⟩
  simp [createCount_append, h]

theorem sameSession_emit (s : Device) (e : Effect) (h : isCreate e = false) :
    SameSession s (s.emit e) := by
  apply sameSession_trace
  simp [createCount, h]

theorem sameSession_print (s : Device) (l : LogLine) : SameSession s (s.print l) :=
  sameSession_emit s _ rfl

theorem createCount_dispenseTrace (bowl grams : Int) :
    createCount (dispenseTrace bowl grams) = 0 := by
  unfold dispenseTrace
  split <;> simp [createCount, isCreate]

theorem createCount_checkTrace (now : Tm) (l : List Schedule) :
    createCount (checkTrace now l) = 0 := by
  induction l with
  | nil => simp [checkTrace, createCount]
  | cons sched rest ih =>
    unfold checkTrace
    rw [createCount_append, ih]
    split
    · have h := createCount_dispenseTrace sched.bowlNumber sched.portionGrams
      simp only [createCount] at h
      simp [createCount, isCreate, h]
    · simp [createCount]

theorem createCount_loaded (docs : List ScheduleDoc) :
    createCount (docs.map loadedLine) = 0 := by
  induction docs with
  | nil => simp [createCount]
  | cons d ds ih =>
    simp only [createCount] at ih
    simp [createCount, loadedLine, isCreate, ih]

theorem sameSession_dispenseFood (bowl grams : Int) (s : Device) :
    SameSession s (dispenseFood bowl grams s) := by
  rw [dispenseFood_eq]
  exact sameSession_trace s _ (createCount_dispenseTrace bowl grams)

theorem sameSession_fetchSchedules (listing : Option (List ScheduleDoc)) (s : Device) :
    SameSession s (fetchSchedules listing s) := by
  unfold fetchSchedules
  by_cases hid : s.feederId.length = 0
  · simp [hid, SameSession.refl]
  · cases listing with
    | none =>
      refine ⟨?_, ?_, ?_, ?_⟩ <;>
        simp [hid, Device.print, Device.emit, createCount, isCreate]
    | some docs =>
      have h := createCount_loaded docs
      simp only [createCount] at h
      refine ⟨?_, ?_, ?_, ?_⟩ <;>
        simp [hid, fetchLoop_eq, Device.print, Device.emit, createCount, isCreate, h]

theorem sameSession_checkSchedules (m0 m1 : Nat) (now : Tm) (s : Device) :
    SameSession s (checkSchedules m0 m1 now s) := by
  by_cases h : subU32 m0 s.lastScheduleCheck < 60000
  · rw [checkSchedules_limited m0 m1 now s h]
    exact SameSession.refl s
  · rw [checkSchedules_eval m0 m1 now s h]
    refine ⟨rfl, rfl, rfl, ?_⟩
    simp [createCount_append, createCount_checkTrace]

theorem sameSession_processPendingCommand (deleteOk : Bool) (s : Device) :
    SameSession s (processPendingCommand deleteOk s) := by
  unfold processPendingCommand
  split
  · have hc := createCount_dispenseTrace s.pendingCommand.bowl s.pendingCommand.amount
    simp only [createCount] at hc
    cases deleteOk <;>
      (refine ⟨?_, ?_, ?_, ?_⟩ <;>
        simp [dispenseFood_eq, Device.print, Device.emit, createCount, isCreate, hc])
  · exact SameSession.refl s

theorem sameSession_streamCallback (data : FirebaseStream)
    (listing : Option (List ScheduleDoc)) (s : Device) :
    SameSession s (streamCallback data listing s) := by
  have h0 := sameSession_print s (.streamEvent data.eventType data.dataPath data.payload)
  unfold streamCallback
  simp only []
  split
  · split
    · split
      · exact h0.trans ⟨rfl, rfl, rfl, rfl⟩
      · exact h0
    · split
      · exact ((h0.trans (sameSession_print _ _)).trans
          (sameSession_fetchSchedules _ _)).trans (sameSession_emit _ _ rfl)
      · exact h0
  · exact h0

theorem sameSession_streamTimeoutCallback (timeout : Bool) (s : Device) :
    SameSession s (streamTimeoutCallback timeout s) := by
  unfold streamTimeoutCallback
  split
  · exact (sameSession_print s .streamTimedOut).trans ⟨rfl, rfl, rfl, rfl⟩
  · exact SameSession.refl s

theorem sameSession_startRTDBStream (ready beginOk : Bool) (s : Device) :
    SameSession s (startRTDBStream ready beginOk s) := by
  unfold startRTDBStream
  simp only []
  split
  · exact SameSession.refl s
  · have h2 := (sameSession_print s (.streamStarting (streamPath ++ s.feederId))).trans
      (sameSession_emit _ (.beginStream (streamPath ++ s.feederId)) rfl)
    split
    · exact h2.trans (sameSession_print _ _)
    · exact ((h2.trans (sameSession_emit _ .setStreamCallback rfl)).trans
        ⟨rfl, rfl, rfl, rfl⟩).trans (sameSession_print _ _)

theorem sameSession_runStreamCall (c : StreamCall) (s : Device) :
    SameSession s (runStreamCall c s) := by
  cases c with
  | event data listing => exact sameSession_streamCallback data listing s
  | timeout flag => exact sameSession_streamTimeoutCallback flag s

theorem sameSession_runStreamCalls (cs : List StreamCall) (s : Device) :
    SameSession s (runStreamCalls cs s) := by
  induction cs generalizing s with
  | nil => exact SameSession.refl s
  | cons c rest ih => exact (sameSession_runStreamCall c s).trans (ih _)

theorem sameSession_operationalTick (i : OperationalIn) (s : Device) :
    SameSession s (operationalTick i s) := by
  unfold operationalTick
  simp only []
  have h1 : SameSession s
      (if (!s.streamActive) = true then startRTDBStream i.streamReady i.beginOk s else s) := by
    split
    · exact sameSession_startRTDBStream _ _ s
    · exact SameSession.refl s
  generalize (if (!s.streamActive) = true then startRTDBStream i.streamReady i.beginOk s
    else s) = s1 at h1 ⊢
  have h2 := h1.trans (sameSession_checkSchedules i.checkMillis0 i.checkMillis1 i.timeinfo s1)
  generalize checkSchedules i.checkMillis0 i.checkMillis1 i.timeinfo s1 = s2 at h2 ⊢
  have h3 : SameSession s
      (if subU32 i.fetchMillis0 s2.lastScheduleFetch > 3600000 then
        fetchSchedules i.listing { s2 with lastScheduleFetch := i.fetchMillis1 }
      else s2) := by
    split
    · exact (h2.trans ⟨rfl, rfl, rfl, rfl⟩).trans (sameSession_fetchSchedules _ _)
    · exact h2
  generalize (if subU32 i.fetchMillis0 s2.lastScheduleFetch > 3600000 then
        fetchSchedules i.listing { s2 with lastScheduleFetch := i.fetchMillis1 }
      else s2) = s3 at h3 ⊢
  have h4 : SameSession s
      (if i.readReady = true then
        if (!i.readOk) = true then
          { (runStreamCalls i.calls (s3.emit .readStream)).print .streamReadError with
            streamActive := false }
        else runStreamCalls i.calls (s3.emit .readStream)
      else s3) := by
    have hr := (h3.trans (sameSession_emit s3 .readStream rfl)).trans
      (sameSession_runStreamCalls i.calls _)
    split
    · split
      · exact (hr.trans (sameSession_print _ _)).trans ⟨rfl, rfl, rfl, rfl⟩
      · exact hr
    · exact h3
  generalize (if i.readReady = true then
        if (!i.readOk) = true then
          { (runStreamCalls i.calls (s3.emit .readStream)).print .streamReadError with
            streamActive := false }
        else runStreamCalls i.calls (s3.emit .readStream)
      else s3) = s4 at h4 ⊢
  split
  · exact (h4.trans (sameSession_processPendingCommand i.deleteOk s4)).trans ⟨rfl, rfl, rfl, rfl⟩
  · exact h4

/-! ## Orchestrator: the state handlers -/

theorem handleClient_keeps (client : Option ClientExchange) (s : Device) :
    (handleClient client s).currentState = s.currentState
      ∧ (handleClient client s).preferences.feederId = s.preferences.feederId
      ∧ createCount (handleClient client s).trace = createCount s.trace := by
  cases client with
  | none => simp [handleClient]
  | some c =>
    unfold handleClient
    simp only []
    refine ⟨?_, ?_, ?_⟩ <;>
      (split_ifs <;>
        simp [Device.print, Device.emit, createCount, isCreate])

theorem sameSession_wifiWaitLoop (status : Nat → Bool) (budget attempts : Nat) (s : Device) :
    SameSession s (wifiWaitLoop status budget attempts s).2 := by
  induction budget generalizing attempts s with
  | zero => exact SameSession.refl s
  | succ n ih =>
    unfold wifiWaitLoop
    split
    · exact ((sameSession_emit s (.delay 500) rfl).trans (sameSession_print _ _)).trans (ih _ _)
    · exact SameSession.refl s

theorem connectToWiFi_keeps (status : Nat → Bool) (s : Device) :
    ((connectToWiFi status s).currentState = .AUTHENTICATING_FIREBASE
        ∨ (connectToWiFi status s).currentState = .ERROR)
      ∧ (connectToWiFi status s).preferences = s.preferences
      ∧ (connectToWiFi status s).restarted = s.restarted
      ∧ createCount (connectToWiFi status s).trace = createCount s.trace := by
  have h := ((sameSession_print s .wifiConnecting).trans
      (sameSession_emit _ (.wifiBegin (s.print .wifiConnecting).preferences.ssid
        (s.print .wifiConnecting).preferences.pass) rfl)).trans
      (sameSession_wifiWaitLoop status 30 0 _)
  unfold connectToWiFi
  simp only []
  split
  · have h2 := h.trans (sameSession_print _ .wifiConnected)
    exact ⟨Or.inl rfl, h2.2.1, h2.2.2.1, h2.2.2.2⟩
  · have h2 := h.trans (sameSession_print _ .wifiFailed)
    exact ⟨Or.inr rfl, h2.2.1, h2.2.2.1, h2.2.2.2⟩

theorem authenticate_keeps (i : AuthIn) (s : Device) :
    (authenticateWithFirebase i s).preferences = s.preferences
      ∧ (authenticateWithFirebase i s).restarted = s.restarted
      ∧ createCount (authenticateWithFirebase i s).trace = createCount s.trace := by
  unfold authenticateWithFirebase
  simp only []
  split
  · split
    · have h := sameSession_fetchSchedules i.listing
        { s.print .authAlready with
          feederId := (s.print .authAlready).preferences.feederId
          currentState := .OPERATIONAL
          lastScheduleFetch := i.now }
      have h0 := sameSession_print s .authAlready
      exact ⟨h.2.1.trans h0.2.1, h.2.2.1.trans h0.2.2.1, h.2.2.2.trans h0.2.2.2⟩
    · have h0 := sameSession_print s .authAlready
      exact ⟨h0.2.1, h0.2.2.1, h0.2.2.2⟩
  · have h0 := (sameSession_print s .authConfiguring).trans
      (sameSession_emit _ .firebaseBegin rfl)
    exact ⟨h0.2.1, h0.2.2.1, h0.2.2.2⟩

theorem authenticate_ready_state (i : AuthIn) (s : Device) (hready : i.ready = true) :
    ((authenticateWithFirebase i s).currentState = .OPERATIONAL
        ↔ s.preferences.feederId.length > 0)
      ∧ ((authenticateWithFirebase i s).currentState = .REGISTERING_FIREBASE
        ↔ s.preferences.feederId.length = 0) := by
  unfold authenticateWithFirebase
  simp only [hready, if_true]
  by_cases hid : s.preferences.feederId.length > 0
  · have hid2 : (s.print .authAlready).preferences.feederId.length > 0 := hid
    have h := sameSession_fetchSchedules i.listing
        { s.print .authAlready with
          feederId := (s.print .authAlready).preferences.feederId
          currentState := .OPERATIONAL
          lastScheduleFetch := i.now }
    have hne : s.preferences.feederId.length ≠ 0 := by omega
    simp only [hid2, if_true]
    rw [h.1]
    simp [hid, hne]
  · have hid2 : ¬ (s.print .authAlready).preferences.feederId.length > 0 := hid
    have hz : s.preferences.feederId.length = 0 := by omega
    simp only [hid2, if_false]
    simp [hid, hz]

theorem authenticate_waiting_state (i : AuthIn) (s : Device) (hready : i.ready = false) :
    (authenticateWithFirebase i s).currentState = s.currentState := by
  simp [authenticateWithFirebase, hready, Device.print, Device.emit]

theorem register_state (i : RegisterIn) (s : Device) :
    ((registerDeviceWithFirestore i s).currentState = s.currentState
        ∨ (registerDeviceWithFirestore i s).currentState = .ERROR
        ∨ (registerDeviceWithFirestore i s).currentState = .OPERATIONAL)
      ∧ (registerDeviceWithFirestore i s).restarted = s.restarted := by
  unfold registerDeviceWithFirestore
  simp only []
  split
  · exact ⟨Or.inl rfl, rfl⟩
  · split
    · exact ⟨Or.inr (Or.inl rfl), rfl⟩
    · split
      · split
        · split
          · refine ⟨Or.inr (Or.inr rfl), ?_⟩
            exact (sameSession_fetchSchedules _ _).2.2.1
          · exact ⟨Or.inr (Or.inl rfl), rfl⟩
        · exact ⟨Or.inr (Or.inl rfl), rfl⟩
      · exact ⟨Or.inr (Or.inl rfl), rfl⟩

/-! ## Orchestrator: ticks and runs -/

theorem sameSession_tickEnd (s : Device) :
    SameSession s (if s.restarted then s else s.emit (.delay 100)) := by
  split
  · exact SameSession.refl s
  · exact sameSession_emit s _ rfl

theorem loop_state (i : TickIn) (s : Device) :
    s.currentState.stage ≤ (loop i s).currentState.stage
      ∧ (s.currentState = .ERROR → (loop i s).currentState = .ERROR)
      ∧ (s.currentState = .OPERATIONAL → (loop i s).currentState = .OPERATIONAL) := by
  cases hr : s.restarted with
  | true => simp [loop, hr]
  | false =>
    simp only [loop, hr, Bool.false_eq_true, if_false]
    cases hs : s.currentState with
    | PROVISIONING_MODE =>
      simp only []
      rw [(sameSession_tickEnd _).1]
      simp [DeviceState.stage]
    | CONNECTING_WIFI =>
      simp only []
      rw [(sameSession_tickEnd _).1]
      rcases (connectToWiFi_keeps i.wifiStatus s).1 with h | h <;>
        simp [h, DeviceState.stage]
    | AUTHENTICATING_FIREBASE =>
      simp only []
      rw [(sameSession_tickEnd _).1]
      cases hready : i.auth.ready with
      | false =>
        rw [authenticate_waiting_state i.auth s hready, hs]
        simp [DeviceState.stage]
      | true =>
        have h := authenticate_ready_state i.auth s hready
        by_cases hid : s.preferences.feederId.length > 0
        · rw [h.1.mpr hid]
          simp [DeviceState.stage]
        · rw [h.2.mpr (by omega)]
          simp [DeviceState.stage]
    | REGISTERING_FIREBASE =>
      simp only []
      rw [(sameSession_tickEnd _).1]
      rcases (register_state i.reg s).1 with h | h | h
      · rw [h, hs]
        simp [DeviceState.stage]
      · rw [h]
        simp [DeviceState.stage]
      · rw [h]
        simp [DeviceState.stage]
    | OPERATIONAL =>
      simp only []
      rw [(sameSession_tickEnd _).1, (sameSession_operationalTick i.op s).1, hs]
      simp
    | ERROR =>
      simp only []
      rw [(sameSession_tickEnd _).1]
      simp [Device.print, Device.emit, hs]

theorem step_state (st : Step) (s : Device) :
    s.currentState.stage ≤ (step st s).currentState.stage
      ∧ (s.currentState = .ERROR → (step st s).currentState = .ERROR)
      ∧ (s.currentState = .OPERATIONAL → (step st s).currentState = .OPERATIONAL) := by
  cases st with
  | tick i => exact loop_state i s
  | call c =>
    have h : (step (.call c) s).currentState = s.currentState := by
      unfold step
      simp only []
      split
      · rfl
      · exact (sameSession_runStreamCall c s).1
    rw [h]
    exact ⟨Nat.le_refl _, fun h => h, fun h => h⟩

theorem run_state (steps : List Step) (s : Device) :
    s.currentState.stage ≤ (run steps s).currentState.stage
      ∧ (s.currentState = .ERROR → (run steps s).currentState = .ERROR)
      ∧ (s.currentState = .OPERATIONAL → (run steps s).currentState = .OPERATIONAL) := by
  induction steps generalizing s with
  | nil => exact ⟨Nat.le_refl _, fun h => h, fun h => h⟩
  | cons st rest ih =>
    have h1 := step_state st s
    have h2 := ih (step st s)
    unfold run
    exact ⟨Nat.le_trans h1.1 h2.1, fun h => h2.2.1 (h1.2.1 h), fun h => h2.2.2 (h1.2.2 h)⟩

theorem registered_of_sameSession {id : String} {s t : Device} (h : SameSession s t)
    (hs : Registered id s) : Registered id t := by
  obtain ⟨h1, h2, _, h4⟩ := h
  obtain ⟨r1, r2, r3, r4⟩ := hs
  exact ⟨by rw [h2]; exact r1, by rw [h4]; exact r2, by rw [h1]; exact r3, by rw [h1]; exact r4⟩

theorem loop_registered (id : String) (hid : id.length > 0) (i : TickIn) (s : Device)
    (hs : Registered id s) : Registered id (loop i s) := by
  obtain ⟨r1, r2, r3, r4⟩ := hs
  cases hr : s.restarted with
  | true =>
    simp only [loop, hr, if_true]
    exact ⟨r1, r2, r3, r4⟩
  | false =>
    simp only [loop, hr, Bool.false_eq_true, if_false]
    cases hst : s.currentState with
    | PROVISIONING_MODE => exact absurd hst r4
    | REGISTERING_FIREBASE => exact absurd hst r3
    | CONNECTING_WIFI =>
      simp only []
      apply registered_of_sameSession (sameSession_tickEnd _)
      obtain ⟨k1, k2, _, k4⟩ := connectToWiFi_keeps i.wifiStatus s
      refine ⟨by rw [k2]; exact r1, by rw [k4]; exact r2, ?_, ?_⟩ <;>
        (rcases k1 with k1 | k1 <;> simp [k1])
    | AUTHENTICATING_FIREBASE =>
      simp only []
      apply registered_of_sameSession (sameSession_tickEnd _)
      obtain ⟨k2, _, k4⟩ := authenticate_keeps i.auth s
      refine ⟨by rw [k2]; exact r1, by rw [k4]; exact r2, ?_, ?_⟩
      · cases hready : i.auth.ready with
        | false =>
          rw [authenticate_waiting_state i.auth s hready, hst]
          simp
        | true =>
          have h := (authenticate_ready_state i.auth s hready).1.mpr (by rw [r1]; exact hid)
          simp [h]
      · cases hready : i.auth.ready with
        | false =>
          rw [authenticate_waiting_state i.auth s hready, hst]
          simp
        | true =>
          have h := (authenticate_ready_state i.auth s hready).1.mpr (by rw [r1]; exact hid)
          simp [h]
    | OPERATIONAL =>
      simp only []
      exact registered_of_sameSession
        ((sameSession_operationalTick i.op s).trans (sameSession_tickEnd _)) ⟨r1, r2, r3, r4⟩
    | ERROR =>
      simp only []
      exact registered_of_sameSession
        (((sameSession_print s .halting).trans (sameSession_emit _ (.delay 10000) rfl)).trans
          (sameSession_tickEnd _)) ⟨r1, r2, r3, r4⟩

theorem step_registered (id : String) (hid : id.length > 0) (st : Step) (s : Device)
    (hs : Registered id s) : Registered id (step st s) := by
  cases st with
  | tick i => exact loop_registered id hid i s hs
  | call c =>
    unfold step
    simp only []
    split
    · exact hs
    · exact registered_of_sameSession (sameSession_runStreamCall c s) hs

theorem run_registered (id : String) (hid : id.length > 0) (steps : List Step) (s : Device)
    (hs : Registered id s) : Registered id (run steps s) := by
  induction steps generalizing s with
  | nil => exact hs
  | cons st rest ih =>
    unfold run
    exact ih _ (step_registered id hid st s hs)

theorem setup_registered (prefs : Preferences) (bootMillis : Nat)
    (hssid : prefs.ssid.length > 0) : Registered prefs.feederId (setup prefs bootMillis) := by
  have h : (setup prefs bootMillis)
      = { ((({ initialDevice prefs with bootTimestamp := bootMillis }.print .booting).emit
            (.servoAttach .servoBowl1)).emit (.servoAttach .servoBowl2)) with
          currentState := .CONNECTING_WIFI } := by
    simp [setup, initialDevice, Device.print, Device.emit, hssid]
  rw [h]
  refine ⟨rfl, ?_, ?_, ?_⟩ <;>
    simp [initialDevice, Device.print, Device.emit, createCount, isCreate]

/-! ## Orchestrator: verified properties -/

/-- C9: with the states ordered as declared (`PROVISIONING_MODE` <
`CONNECTING_WIFI` < `AUTHENTICATING_FIREBASE` < `REGISTERING_FIREBASE` <
`OPERATIONAL`, `ERROR` last), no tick of `loop()` moves `currentState` to an
earlier state, whatever the external calls answer and whatever stream calls
arrive; a tick in `ERROR` ends in `ERROR` and a tick in `OPERATIONAL` ends in
`OPERATIONAL`. The same holds for every sequence of ticks and stream calls. -/
theorem orchestrator_one_directional :
    (∀ (i : TickIn) (s : Device),
        s.currentState.stage ≤ (loop i s).currentState.stage
          ∧ (s.currentState = .ERROR → (loop i s).currentState = .ERROR)
          ∧ (s.currentState = .OPERATIONAL → (loop i s).currentState = .OPERATIONAL))
      ∧ (∀ (steps : List Step) (s : Device),
        s.currentState.stage ≤ (run steps s).currentState.stage
          ∧ (s.currentState = .ERROR → (run steps s).currentState = .ERROR)
          ∧ (s.currentState = .OPERATIONAL → (run steps s).currentState = .OPERATIONAL)) :=
  ⟨loop_state, run_state⟩

/-- C10: in a session booted with saved credentials and a non-empty stored
identity, after any sequence of ticks and stream calls the orchestrator is not
in `REGISTERING_FIREBASE` (nor provisioning), no create-identity call has been
issued, and the stored identity is the one found at boot. Moreover the
`AUTHENTICATING_FIREBASE` handler with a ready token moves to `OPERATIONAL`
exactly when the stored identity is non-empty and to `REGISTERING_FIREBASE`
exactly when it is empty. -/
theorem never_registers_twice (prefs : Preferences) (bootMillis : Nat) (steps : List Step)
    (hssid : prefs.ssid.length > 0) (hid : prefs.feederId.length > 0) :
    ((run steps (setup prefs bootMillis)).currentState ≠ .REGISTERING_FIREBASE
        ∧ (run steps (setup prefs bootMillis)).currentState ≠ .PROVISIONING_MODE
        ∧ createCount (run steps (setup prefs bootMillis)).trace = 0
        ∧ (run steps (setup prefs bootMillis)).preferences.feederId = prefs.feederId)
      ∧ (∀ (i : AuthIn) (s : Device), i.ready = true →
          ((authenticateWithFirebase i s).currentState = .OPERATIONAL
              ↔ s.preferences.feederId.length > 0)
            ∧ ((authenticateWithFirebase i s).currentState = .REGISTERING_FIREBASE
              ↔ s.preferences.feederId.length = 0)) := by
  have h := run_registered prefs.feederId hid steps _ (setup_registered prefs bootMillis hssid)
  exact ⟨⟨h.2.2.1, h.2.2.2, h.2.1, h.1⟩, authenticate_ready_state⟩

/-- Witness for C10: a registered device booted and run for three ticks is
operational, has made no create-identity call and keeps its identity. -/
theorem never_registers_twice_witness :
    (run [.tick sampleTick, .tick sampleTick, .tick sampleTick]
        (setup sampleRegisteredPrefs 0)).currentState = .OPERATIONAL
      ∧ createCount (run [.tick sampleTick, .tick sampleTick, .tick sampleTick]
          (setup sampleRegisteredPrefs 0)).trace = 0
      ∧ (run [.tick sampleTick, .tick sampleTick, .tick sampleTick]
          (setup sampleRegisteredPrefs 0)).preferences.feederId = "f1" := by
  have h := (never_registers_twice sampleRegisteredPrefs 0
    [.tick sampleTick, .tick sampleTick, .tick sampleTick] (by decide) (by decide)).1
  exact ⟨by decide, h.2.2.1, h.2.2.2⟩

/-! ## Command staging: what the other functions leave alone -/

theorem SamePending.pendingRefl (s : Device) : SamePending s s :=
  ⟨rfl, rfl, rfl, rfl⟩

theorem SamePending.pendingTrans {a b c : Device} (h1 : SamePending a b) (h2 : SamePending b c) :
    SamePending a c :=
  ⟨h2.1.trans h1.1, h2.2.1.trans h1.2.1, h2.2.2.1.trans h1.2.2.1, h2.2.2.2.trans h1.2.2.2⟩

theorem commandDispenses_append (a b : List Effect) :
    commandDispenses (a ++ b) = commandDispenses a + commandDispenses b := by
  simp [commandDispenses, List.countP_append]

theorem samePending_trace (s : Device) (tr : List Effect) (h : commandDispenses tr = 0) :
    SamePending s { s with trace := s.trace ++ tr } := by
  refine ⟨rfl, rfl, rfl, ?_⟩
  simp [commandDispenses_append, h]

theorem samePending_emit (s : Device) (e : Effect) (h : isCommandDispense e = false) :
    SamePending s (s.emit e) := by
  apply samePending_trace
  simp [commandDispenses, h]

theorem samePending_print (s : Device) (l : LogLine)
    (h : isCommandDispense (.serial l) = false) : SamePending s (s.print l) :=
  samePending_emit s _ h

theorem commandDispenses_dispenseTrace (bowl grams : Int) :
    commandDispenses (dispenseTrace bowl grams) = 0 := by
  unfold dispenseTrace
  split <;> simp [commandDispenses, isCommandDispense]

theorem commandDispenses_checkTrace (now : Tm) (l : List Schedule) :
    commandDispenses (checkTrace now l) = 0 := by
  induction l with
  | nil => simp [checkTrace, commandDispenses]
  | cons sched rest ih =>
    unfold checkTrace
    rw [commandDispenses_append, ih]
    split
    · have h := commandDispenses_dispenseTrace sched.bowlNumber sched.portionGrams
      simp only [commandDispenses] at h
      simp [commandDispenses, isCommandDispense, h]
    · simp [commandDispenses]

theorem commandDispenses_loaded (docs : List ScheduleDoc) :
    commandDispenses (docs.map loadedLine) = 0 := by
  induction docs with
  | nil => simp [commandDispenses]
  | cons d ds ih =>
    simp only [commandDispenses] at ih
    simp [commandDispenses, loadedLine, isCommandDispense, ih]

theorem samePending_dispenseFood (bowl grams : Int) (s : Device) :
    SamePending s (dispenseFood bowl grams s) := by
  rw [dispenseFood_eq]
  exact samePending_trace s _ (commandDispenses_dispenseTrace bowl grams)

theorem samePending_fetchSchedules (listing : Option (List ScheduleDoc)) (s : Device) :
    SamePending s (fetchSchedules listing s) := by
  unfold fetchSchedules
  by_cases hid : s.feederId.length = 0
  · simp [hid, SamePending.pendingRefl]
  · cases listing with
    | none =>
      refine ⟨?_, ?_, ?_, ?_⟩ <;>
        simp [hid, Device.print, Device.emit, commandDispenses, isCommandDispense]
    | some docs =>
      have h := commandDispenses_loaded docs
      simp only [commandDispenses] at h
      refine ⟨?_, ?_, ?_, ?_⟩ <;>
        simp [hid, fetchLoop_eq, Device.print, Device.emit, commandDispenses,
          isCommandDispense, h]

theorem samePending_checkSchedules (m0 m1 : Nat) (now : Tm) (s : Device) :
    SamePending s (checkSchedules m0 m1 now s) := by
  by_cases h : subU32 m0 s.lastScheduleCheck < 60000
  · rw [checkSchedules_limited m0 m1 now s h]
    exact SamePending.pendingRefl s
  · rw [checkSchedules_eval m0 m1 now s h]
    refine ⟨rfl, rfl, rfl, ?_⟩
    simp [commandDispenses_append, commandDispenses_checkTrace]

theorem samePending_streamTimeoutCallback (timeout : Bool) (s : Device) :
    SamePending s (streamTimeoutCallback timeout s) := by
  unfold streamTimeoutCallback
  split
  · exact (samePending_print s .streamTimedOut rfl).pendingTrans ⟨rfl, rfl, rfl, rfl⟩
  · exact SamePending.pendingRefl s

theorem samePending_startRTDBStream (ready beginOk : Bool) (s : Device) :
    SamePending s (startRTDBStream ready beginOk s) := by
  unfold startRTDBStream
  simp only []
  split
  · exact SamePending.pendingRefl s
  · have h2 := (samePending_print s (.streamStarting (streamPath ++ s.feederId)) rfl).pendingTrans
      (samePending_emit _ (.beginStream (streamPath ++ s.feederId)) rfl)
    split
    · exact h2.pendingTrans (samePending_print _ _ rfl)
    · exact ((h2.pendingTrans (samePending_emit _ .setStreamCallback rfl)).pendingTrans
        ⟨rfl, rfl, rfl, rfl⟩).pendingTrans (samePending_print _ _ rfl)

theorem samePending_atStreamRead (i : OperationalIn) (s : Device) :
    SamePending s (atStreamRead i s) := by
  unfold atStreamRead
  simp only []
  have h1 : SamePending s
      (if (!s.streamActive) = true then startRTDBStream i.streamReady i.beginOk s else s) := by
    split
    · exact samePending_startRTDBStream _ _ s
    · exact SamePending.pendingRefl s
  generalize (if (!s.streamActive) = true then startRTDBStream i.streamReady i.beginOk s
    else s) = s1 at h1 ⊢
  have h2 := h1.pendingTrans (samePending_checkSchedules i.checkMillis0 i.checkMillis1 i.timeinfo s1)
  generalize checkSchedules i.checkMillis0 i.checkMillis1 i.timeinfo s1 = s2 at h2 ⊢
  split
  · exact (h2.pendingTrans ⟨rfl, rfl, rfl, rfl⟩).pendingTrans (samePending_fetchSchedules _ _)
  · exact h2

theorem samePending_handleClient (client : Option ClientExchange) (s : Device) :
    SamePending s (handleClient client s) := by
  cases client with
  | none => exact SamePending.pendingRefl s
  | some c =>
    unfold handleClient
    simp only []
    refine ⟨?_, ?_, ?_, ?_⟩ <;>
      (split_ifs <;>
        simp [Device.print, Device.emit, commandDispenses, isCommandDispense])

theorem samePending_wifiWaitLoop (status : Nat → Bool) (budget attempts : Nat) (s : Device) :
    SamePending s (wifiWaitLoop status budget attempts s).2 := by
  induction budget generalizing attempts s with
  | zero => exact SamePending.pendingRefl s
  | succ n ih =>
    unfold wifiWaitLoop
    split
    · exact ((samePending_emit s (.delay 500) rfl).pendingTrans
        (samePending_print _ .wifiDot rfl)).pendingTrans (ih _ _)
    · exact SamePending.pendingRefl s

theorem samePending_connectToWiFi (status : Nat → Bool) (s : Device) :
    SamePending s (connectToWiFi status s) := by
  have h := ((samePending_print s .wifiConnecting rfl).pendingTrans
      (samePending_emit _ (.wifiBegin (s.print .wifiConnecting).preferences.ssid
        (s.print .wifiConnecting).preferences.pass) rfl)).pendingTrans
      (samePending_wifiWaitLoop status 30 0 _)
  unfold connectToWiFi
  simp only []
  split
  · exact (h.pendingTrans (samePending_print _ .wifiConnected rfl)).pendingTrans ⟨rfl, rfl, rfl, rfl⟩
  · exact (h.pendingTrans (samePending_print _ .wifiFailed rfl)).pendingTrans ⟨rfl, rfl, rfl, rfl⟩

theorem samePending_authenticate (i : AuthIn) (s : Device) :
    SamePending s (authenticateWithFirebase i s) := by
  unfold authenticateWithFirebase
  simp only []
  have h0 := samePending_print s .authAlready rfl
  split
  · split
    · exact (h0.pendingTrans ⟨rfl, rfl, rfl, rfl⟩).pendingTrans (samePending_fetchSchedules i.listing
        { s.print .authAlready with
          feederId := (s.print .authAlready).preferences.feederId
          currentState := .OPERATIONAL
          lastScheduleFetch := i.now })
    · exact h0.pendingTrans ⟨rfl, rfl, rfl, rfl⟩
  · exact (samePending_print s .authConfiguring rfl).pendingTrans
      (samePending_emit _ .firebaseBegin rfl)

theorem samePending_register (i : RegisterIn) (s : Device) :
    SamePending s (registerDeviceWithFirestore i s) := by
  unfold registerDeviceWithFirestore
  simp only []
  have h1 := samePending_print s .registering rfl
  split
  · exact samePending_print s .waitingForToken rfl
  · split
    · exact h1.pendingTrans ⟨rfl, rfl, rfl, rfl⟩
    · have h2 := h1.pendingTrans
        (samePending_emit _ (.createDocument (s.print .registering).preferences.owner_uid) rfl)
      split
      · have h3 := h2.pendingTrans (samePending_print _ .feederDocCreated rfl)
        split
        · split
          · refine ⟨?_, ?_, ?_, ?_⟩
            · exact ((samePending_fetchSchedules _ _).1).trans h3.1
            · exact ((samePending_fetchSchedules _ _).2.1).trans h3.2.1
            · exact ((samePending_fetchSchedules _ _).2.2.1).trans h3.2.2.1
            · refine ((samePending_fetchSchedules _ _).2.2.2).trans ?_
              simp [Device.print, Device.emit, commandDispenses, isCommandDispense]
          · refine ⟨rfl, rfl, rfl, ?_⟩
            simp [Device.print, Device.emit, commandDispenses, isCommandDispense]
        · exact (h3.pendingTrans (samePending_print _ .parseIdFailed rfl)).pendingTrans ⟨rfl, rfl, rfl, rfl⟩
      · exact (h2.pendingTrans (samePending_print _ .createFailed rfl)).pendingTrans ⟨rfl, rfl, rfl, rfl⟩

theorem samePending_tickEnd (s : Device) :
    SamePending s (if s.restarted then s else s.emit (.delay 100)) := by
  split
  · exact SamePending.pendingRefl s
  · exact samePending_emit s _ rfl

/-! ## Command staging: the stream calls and the drain -/

theorem streamCallback_pending (data : FirebaseStream) (listing : Option (List ScheduleDoc))
    (s : Device) :
    commandDispenses (streamCallback data listing s).trace = commandDispenses s.trace
      ∧ ((streamCallback data listing s).lastCmdTimestamp = s.lastCmdTimestamp →
          (streamCallback data listing s).newCommandAvailable = s.newCommandAvailable) := by
  have h0 := samePending_print s (.streamEvent data.eventType data.dataPath data.payload) rfl
  unfold streamCallback
  simp only []
  split
  · split
    · split
      · rename_i hfresh
        refine ⟨h0.2.2.2, ?_⟩
        intro heq
        have hl := h0.2.2.1
        simp only [] at heq
        omega
      · exact ⟨h0.2.2.2, fun _ => h0.1⟩
    · split
      · have h := ((h0.pendingTrans (samePending_print _ .refetchSignal rfl)).pendingTrans
          (samePending_fetchSchedules listing _)).pendingTrans
            (samePending_emit _ (.setNull (streamPath ++ (fetchSchedules listing
              ((s.print (.streamEvent data.eventType data.dataPath data.payload)).print
                .refetchSignal)).feederId)) rfl)
        exact ⟨h.2.2.2, fun _ => h.1⟩
      · exact ⟨h0.2.2.2, fun _ => h0.1⟩
  · exact ⟨h0.2.2.2, fun _ => h0.1⟩

theorem runStreamCall_pending (c : StreamCall) (s : Device) :
    commandDispenses (runStreamCall c s).trace = commandDispenses s.trace
      ∧ pendingCount (runStreamCall c s) ≤ pendingCount s + acceptedCall c s
      ∧ (acceptedCall c s = 0 →
          (runStreamCall c s).newCommandAvailable = s.newCommandAvailable) := by
  have key : commandDispenses (runStreamCall c s).trace = commandDispenses s.trace
      ∧ ((runStreamCall c s).lastCmdTimestamp = s.lastCmdTimestamp →
          (runStreamCall c s).newCommandAvailable = s.newCommandAvailable) := by
    cases c with
    | event data listing => exact streamCallback_pending data listing s
    | timeout flag =>
      have h := samePending_streamTimeoutCallback flag s
      exact ⟨h.2.2.2, fun _ => h.1⟩
  refine ⟨key.1, ?_, ?_⟩
  · unfold acceptedCall
    split
    · rename_i heq
      simp [pendingCount, key.2 heq]
    · unfold pendingCount
      split <;> split <;> omega
  · unfold acceptedCall
    split
    · rename_i heq
      intro _
      exact key.2 heq
    · intro h
      omega

theorem runStreamCalls_pending (cs : List StreamCall) (s : Device) :
    commandDispenses (runStreamCalls cs s).trace = commandDispenses s.trace
      ∧ pendingCount (runStreamCalls cs s) ≤ pendingCount s + acceptedInCalls cs s
      ∧ (acceptedInCalls cs s = 0 →
          (runStreamCalls cs s).newCommandAvailable = s.newCommandAvailable) := by
  induction cs generalizing s with
  | nil => simp [runStreamCalls, acceptedInCalls]
  | cons c rest ih =>
    obtain ⟨a1, a2, a3⟩ := runStreamCall_pending c s
    obtain ⟨b1, b2, b3⟩ := ih (runStreamCall c s)
    unfold runStreamCalls acceptedInCalls
    refine ⟨b1.trans a1, by omega, ?_⟩
    intro hz
    rw [b3 (by omega), a3 (by omega)]

theorem processPendingCommand_pending (deleteOk : Bool) (s : Device) :
    commandDispenses (processPendingCommand deleteOk s).trace ≤ commandDispenses s.trace + 1
      ∧ commandDispenses s.trace ≤ commandDispenses (processPendingCommand deleteOk s).trace := by
  unfold processPendingCommand
  split
  · have hc := commandDispenses_dispenseTrace s.pendingCommand.bowl s.pendingCommand.amount
    simp only [commandDispenses] at hc
    cases deleteOk <;>
      simp [dispenseFood_eq, Device.print, Device.emit, commandDispenses, isCommandDispense, hc]
  · simp

theorem operationalTick_eq (i : OperationalIn) (s : Device) :
    operationalTick i s
      = (if (if i.readReady = true then
              if (!i.readOk) = true then
                { (runStreamCalls i.calls ((atStreamRead i s).emit .readStream)).print
                    .streamReadError with streamActive := false }
              else runStreamCalls i.calls ((atStreamRead i s).emit .readStream)
            else atStreamRead i s).newCommandAvailable = true then
          { processPendingCommand i.deleteOk
              (if i.readReady = true then
                if (!i.readOk) = true then
                  { (runStreamCalls i.calls ((atStreamRead i s).emit .readStream)).print
                      .streamReadError with streamActive := false }
                else runStreamCalls i.calls ((atStreamRead i s).emit .readStream)
              else atStreamRead i s) with newCommandAvailable := false }
        else
          (if i.readReady = true then
            if (!i.readOk) = true then
              { (runStreamCalls i.calls ((atStreamRead i s).emit .readStream)).print
                  .streamReadError with streamActive := false }
            else runStreamCalls i.calls ((atStreamRead i s).emit .readStream)
          else atStreamRead i s)) := by
  rfl

theorem afterRead_pending (i : OperationalIn) (s : Device) :
    commandDispenses
        (if i.readReady = true then
          if (!i.readOk) = true then
            { (runStreamCalls i.calls ((atStreamRead i s).emit .readStream)).print
                .streamReadError with streamActive := false }
          else runStreamCalls i.calls ((atStreamRead i s).emit .readStream)
        else atStreamRead i s).trace = commandDispenses s.trace
      ∧ pendingCount
          (if i.readReady = true then
            if (!i.readOk) = true then
              { (runStreamCalls i.calls ((atStreamRead i s).emit .readStream)).print
                  .streamReadError with streamActive := false }
            else runStreamCalls i.calls ((atStreamRead i s).emit .readStream)
          else atStreamRead i s)
        ≤ pendingCount s + acceptedInOperationalTick i s
      ∧ (acceptedInOperationalTick i s = 0 →
          (if i.readReady = true then
            if (!i.readOk) = true then
              { (runStreamCalls i.calls ((atStreamRead i s).emit .readStream)).print
                  .streamReadError with streamActive := false }
            else runStreamCalls i.calls ((atStreamRead i s).emit .readStream)
          else atStreamRead i s).newCommandAvailable = s.newCommandAvailable) := by
  have h3 := samePending_atStreamRead i s
  have he := samePending_emit (atStreamRead i s) .readStream rfl
  obtain ⟨c1, c2, c3⟩ := runStreamCalls_pending i.calls ((atStreamRead i s).emit .readStream)
  have hp3 : pendingCount ((atStreamRead i s).emit .readStream) = pendingCount s := by
    simp [pendingCount, he.1, h3.1]
  unfold acceptedInOperationalTick
  cases hr : i.readReady with
  | false =>
    simp only [Bool.false_eq_true, if_false]
    refine ⟨h3.2.2.2, ?_, fun _ => h3.1⟩
    simp [pendingCount, h3.1]
  | true =>
    simp only [if_true]
    have hD : commandDispenses (runStreamCalls i.calls
        ((atStreamRead i s).emit .readStream)).trace = commandDispenses s.trace :=
      c1.trans (he.2.2.2.trans h3.2.2.2)
    have hN : acceptedInCalls i.calls ((atStreamRead i s).emit .readStream) = 0 →
        (runStreamCalls i.calls ((atStreamRead i s).emit .readStream)).newCommandAvailable
          = s.newCommandAvailable := fun hz => (c3 hz).trans (he.1.trans h3.1)
    split
    · have hp := samePending_print
        (runStreamCalls i.calls ((atStreamRead i s).emit .readStream)) .streamReadError rfl
      refine ⟨?_, ?_, ?_⟩
      · exact hp.2.2.2.trans hD
      · have hle : pendingCount (runStreamCalls i.calls ((atStreamRead i s).emit .readStream))
            ≤ pendingCount s + acceptedInCalls i.calls ((atStreamRead i s).emit .readStream) := by
          omega
        exact hle
      · intro hz
        exact hp.1.trans (hN hz)
    · exact ⟨hD, by omega, hN⟩

theorem operationalTick_pending (i : OperationalIn) (s : Device) :
    commandDispenses (operationalTick i s).trace ≤ commandDispenses s.trace + 1
      ∧ commandDispenses s.trace ≤ commandDispenses (operationalTick i s).trace
      ∧ (operationalTick i s).newCommandAvailable = false
      ∧ commandDispenses (operationalTick i s).trace + pendingCount (operationalTick i s)
          ≤ commandDispenses s.trace + pendingCount s + acceptedInOperationalTick i s
      ∧ (s.newCommandAvailable = false → acceptedInOperationalTick i s = 0 →
          commandDispenses (operationalTick i s).trace = commandDispenses s.trace) := by
  obtain ⟨a1, a2, a3⟩ := afterRead_pending i s
  rw [operationalTick_eq]
  generalize (if i.readReady = true then
          if (!i.readOk) = true then
            { (runStreamCalls i.calls ((atStreamRead i s).emit .readStream)).print
                .streamReadError with streamActive := false }
          else runStreamCalls i.calls ((atStreamRead i s).emit .readStream)
        else atStreamRead i s) = s4 at a1 a2 a3 ⊢
  obtain ⟨p1, p2⟩ := processPendingCommand_pending i.deleteOk s4
  by_cases hn : s4.newCommandAvailable = true
  · have hp4 : pendingCount s4 = 1 := by simp [pendingCount, hn]
    have hp5 : pendingCount { processPendingCommand i.deleteOk s4 with
        newCommandAvailable := false } = 0 := rfl
    have hD : commandDispenses ({ processPendingCommand i.deleteOk s4 with
        newCommandAvailable := false } : Device).trace
          = commandDispenses (processPendingCommand i.deleteOk s4).trace := rfl
    rw [if_pos hn, hD, hp5]
    refine ⟨by omega, by omega, rfl, by omega, ?_⟩
    intro hs hz
    rw [a3 hz, hs] at hn
    cases hn
  · have hf : s4.newCommandAvailable = false := by simpa using hn
    have hp4 : pendingCount s4 = 0 := by simp [pendingCount, hf]
    rw [if_neg hn]
    exact ⟨by omega, by omega, hf, by omega, fun _ _ => a1⟩

theorem streamCallback_not_feed (d : FirebaseStream) (l : Option (List ScheduleDoc))
    (s : Device) (hf : ¬ isFeed d) :
    (streamCallback d l s).lastCmdTimestamp = s.lastCmdTimestamp := by
  have h0 := samePending_print s (.streamEvent d.eventType d.dataPath d.payload) rfl
  unfold streamCallback
  simp only []
  split
  · rename_i hshape
    split
    · rename_i hcmd
      exfalso
      apply hf
      refine ⟨hshape.1, hshape.2, ?_⟩
      cases hc : d.command with
      | none =>
        rw [hc] at hcmd
        exact absurd hcmd (by decide)
      | some c =>
        rw [hc] at hcmd
        simp only [] at hcmd
        rw [hcmd]
    · split
      · exact (((h0.pendingTrans (samePending_print _ .refetchSignal rfl)).pendingTrans
          (samePending_fetchSchedules l _)).pendingTrans
            (samePending_emit _ (.setNull (streamPath ++ (fetchSchedules l
              ((s.print (.streamEvent d.eventType d.dataPath d.payload)).print
                .refetchSignal)).feederId)) rfl)).2.2.1
      · exact h0.2.2.1
  · exact h0.2.2.1

theorem acceptedCall_event_iff (d : FirebaseStream) (l : Option (List ScheduleDoc))
    (s : Device) :
    acceptedCall (.event d l) s = 1 ↔ (isFeed d ∧ s.lastCmdTimestamp < eventTimestamp d) := by
  unfold acceptedCall runStreamCall
  simp only []
  by_cases hf : isFeed d
  · by_cases hfresh : s.lastCmdTimestamp < eventTimestamp d
    · have hl : (streamCallback d l s).lastCmdTimestamp = eventTimestamp d := by
        rw [streamCallback_feed d l s hf]
        simp [hfresh]
      have hne : ¬ eventTimestamp d = s.lastCmdTimestamp := by omega
      simp [hl, hf, hfresh, hne]
    · have hl : (streamCallback d l s).lastCmdTimestamp = s.lastCmdTimestamp := by
        rw [streamCallback_feed d l s hf]
        simp [hfresh]
      simp [hl, hfresh]
  · have hl := streamCallback_not_feed d l s hf
    simp [hl, hf]

theorem potential_of_samePending {s t : Device} (h : SamePending s t) :
    commandDispenses t.trace + pendingCount t = commandDispenses s.trace + pendingCount s := by
  simp [pendingCount, h.1, h.2.2.2]

theorem loop_pending (i : TickIn) (s : Device) :
    commandDispenses (loop i s).trace + pendingCount (loop i s)
      ≤ commandDispenses s.trace + pendingCount s + acceptedInStep (.tick i) s := by
  cases hr : s.restarted with
  | true => simp [loop, hr]
  | false =>
    simp only [loop, acceptedInStep, hr, Bool.false_eq_true, if_false]
    cases hs : s.currentState with
    | PROVISIONING_MODE =>
      simp only []
      rw [potential_of_samePending ((samePending_handleClient i.client s).pendingTrans
        (samePending_tickEnd _))]
      omega
    | CONNECTING_WIFI =>
      simp only []
      rw [potential_of_samePending ((samePending_connectToWiFi i.wifiStatus s).pendingTrans
        (samePending_tickEnd _))]
      omega
    | AUTHENTICATING_FIREBASE =>
      simp only []
      rw [potential_of_samePending ((samePending_authenticate i.auth s).pendingTrans
        (samePending_tickEnd _))]
      omega
    | REGISTERING_FIREBASE =>
      simp only []
      rw [potential_of_samePending ((samePending_register i.reg s).pendingTrans
        (samePending_tickEnd _))]
      omega
    | OPERATIONAL =>
      simp only []
      rw [potential_of_samePending (samePending_tickEnd (operationalTick i.op s))]
      exact (operationalTick_pending i.op s).2.2.2.1
    | ERROR =>
      simp only []
      rw [potential_of_samePending (((samePending_print s .halting rfl).pendingTrans
        (samePending_emit _ (.delay 10000) rfl)).pendingTrans (samePending_tickEnd _))]
      omega

theorem step_pending (st : Step) (s : Device) :
    commandDispenses (step st s).trace + pendingCount (step st s)
      ≤ commandDispenses s.trace + pendingCount s + acceptedInStep st s := by
  cases st with
  | tick i => exact loop_pending i s
  | call c =>
    cases hr : s.restarted with
    | true => simp [step, hr]
    | false =>
      simp only [step, acceptedInStep, hr, Bool.false_eq_true, if_false]
      obtain ⟨a1, a2, _⟩ := runStreamCall_pending c s
      omega

theorem run_pending (steps : List Step) (s : Device) :
    commandDispenses (run steps s).trace + pendingCount (run steps s)
      ≤ commandDispenses s.trace + pendingCount s + acceptedInRun steps s := by
  induction steps generalizing s with
  | nil => simp [run, acceptedInRun]
  | cons st rest ih =>
    have h1 := step_pending st s
    have h2 := ih (step st s)
    unfold run acceptedInRun
    omega

theorem setup_pending (prefs : Preferences) (bootMillis : Nat) :
    commandDispenses (setup prefs bootMillis).trace = 0
      ∧ pendingCount (setup prefs bootMillis) = 0 := by
  unfold setup
  simp only []
  split <;>
    simp [startProvisioningServer, initialDevice, Device.print, Device.emit, commandDispenses,
      isCommandDispense, pendingCount]

/-! ## Schedule cache: what happens while it is empty -/

theorem Quiet.quietRefl (s : Device) (hs : s.schedules = []) : Quiet s s :=
  ⟨hs, rfl⟩

theorem Quiet.quietTrans {a b c : Device} (h1 : Quiet a b) (h2 : Quiet b c) : Quiet a c :=
  ⟨h2.1, h2.2.trans h1.2⟩

theorem scheduleTriggers_append (a b : List Effect) :
    scheduleTriggers (a ++ b) = scheduleTriggers a + scheduleTriggers b := by
  simp [scheduleTriggers, List.countP_append]

theorem quiet_trace (s : Device) (tr : List Effect) (hs : s.schedules = [])
    (h : scheduleTriggers tr = 0) : Quiet s { s with trace := s.trace ++ tr } := by
  refine ⟨hs, ?_⟩
  simp [scheduleTriggers_append, h]

theorem quiet_emit (s : Device) (e : Effect) (hs : s.schedules = [])
    (h : isTrigger e = false) : Quiet s (s.emit e) := by
  apply quiet_trace s _ hs
  simp [scheduleTriggers, h]

theorem quiet_print (s : Device) (l : LogLine) (hs : s.schedules = [])
    (h : isTrigger (.serial l) = false) : Quiet s (s.print l) :=
  quiet_emit s _ hs h

theorem scheduleTriggers_dispenseTrace (bowl grams : Int) :
    scheduleTriggers (dispenseTrace bowl grams) = 0 := by
  unfold dispenseTrace
  split <;> simp [scheduleTriggers, isTrigger]

theorem quiet_dispenseFood (bowl grams : Int) (s : Device) (hs : s.schedules = []) :
    Quiet s (dispenseFood bowl grams s) := by
  rw [dispenseFood_eq]
  exact quiet_trace s _ hs (scheduleTriggers_dispenseTrace bowl grams)

theorem fetchSchedules_failed (s : Device) (hid : s.feederId.length ≠ 0) :
    fetchSchedules none s
      = { s with
          schedules := []
          trace := s.trace ++
            [ .serial .fetchingSchedules,
              .listDocuments (("feeders/" ++ s.feederId) ++ "/schedules"),
              .serial .listFailed ] } := by
  simp [fetchSchedules, hid, Device.print, Device.emit]

theorem quiet_fetchSchedules_none (s : Device) (hs : s.schedules = []) :
    Quiet s (fetchSchedules none s) := by
  by_cases hid : s.feederId.length = 0
  · simp [fetchSchedules, hid, Quiet.quietRefl s hs]
  · rw [fetchSchedules_failed s hid]
    refine ⟨rfl, ?_⟩
    simp [scheduleTriggers, isTrigger]

theorem quiet_checkSchedules (m0 m1 : Nat) (now : Tm) (s : Device) (hs : s.schedules = []) :
    Quiet s (checkSchedules m0 m1 now s) := by
  by_cases h : subU32 m0 s.lastScheduleCheck < 60000
  · rw [checkSchedules_limited m0 m1 now s h]
    exact Quiet.quietRefl s hs
  · rw [checkSchedules_eval m0 m1 now s h, hs]
    refine ⟨rfl, ?_⟩
    simp [checkTrace]

theorem quiet_processPendingCommand (deleteOk : Bool) (s : Device) (hs : s.schedules = []) :
    Quiet s (processPendingCommand deleteOk s) := by
  unfold processPendingCommand
  split
  · have hc := scheduleTriggers_dispenseTrace s.pendingCommand.bowl s.pendingCommand.amount
    simp only [scheduleTriggers] at hc
    cases deleteOk <;>
      (refine ⟨?_, ?_⟩ <;>
        simp [dispenseFood_eq, Device.print, Device.emit, scheduleTriggers, isTrigger, hc, hs])
  · exact Quiet.quietRefl s hs

theorem quiet_streamCallback (data : FirebaseStream) (s : Device) (hs : s.schedules = []) :
    Quiet s (streamCallback data none s) := by
  have h0 := quiet_print s (.streamEvent data.eventType data.dataPath data.payload) hs rfl
  unfold streamCallback
  simp only []
  split
  · split
    · split
      · exact h0.quietTrans ⟨h0.1, rfl⟩
      · exact h0
    · split
      · have h1 := h0.quietTrans (quiet_print _ .refetchSignal h0.1 rfl)
        have h2 := h1.quietTrans (quiet_fetchSchedules_none _ h1.1)
        exact h2.quietTrans (quiet_emit _ _ h2.1 rfl)
      · exact h0
  · exact h0

theorem quiet_streamTimeoutCallback (timeout : Bool) (s : Device) (hs : s.schedules = []) :
    Quiet s (streamTimeoutCallback timeout s) := by
  unfold streamTimeoutCallback
  split
  · have h := quiet_print s .streamTimedOut hs rfl
    exact h.quietTrans ⟨h.1, rfl⟩
  · exact Quiet.quietRefl s hs

theorem quiet_startRTDBStream (ready beginOk : Bool) (s : Device) (hs : s.schedules = []) :
    Quiet s (startRTDBStream ready beginOk s) := by
  unfold startRTDBStream
  simp only []
  split
  · exact Quiet.quietRefl s hs
  · have h1 := quiet_print s (.streamStarting (streamPath ++ s.feederId)) hs rfl
    have h2 := h1.quietTrans (quiet_emit _ (.beginStream (streamPath ++ s.feederId)) h1.1 rfl)
    split
    · exact h2.quietTrans (quiet_print _ .streamBeginFailed h2.1 rfl)
    · have h3 := h2.quietTrans (quiet_emit _ .setStreamCallback h2.1 rfl)
      have h4 : Quiet s { ((s.print (.streamStarting (streamPath ++ s.feederId))).emit
          (.beginStream (streamPath ++ s.feederId))).emit .setStreamCallback with
          streamActive := true } := h3.quietTrans ⟨h3.1, rfl⟩
      exact h4.quietTrans (quiet_print _ .streamStarted h4.1 rfl)

theorem quiet_runStreamCall (c : StreamCall) (s : Device) (hs : s.schedules = [])
    (hc : callFails c = true) : Quiet s (runStreamCall c s) := by
  cases c with
  | event data listing =>
    cases listing with
    | none => exact quiet_streamCallback data s hs
    | some docs => simp [callFails] at hc
  | timeout flag => exact quiet_streamTimeoutCallback flag s hs

theorem quiet_runStreamCalls (cs : List StreamCall) (s : Device) (hs : s.schedules = [])
    (hc : cs.all callFails = true) : Quiet s (runStreamCalls cs s) := by
  induction cs generalizing s with
  | nil => exact Quiet.quietRefl s hs
  | cons c rest ih =>
    simp only [List.all_cons, Bool.and_eq_true] at hc
    have h1 := quiet_runStreamCall c s hs hc.1
    exact h1.quietTrans (ih _ h1.1 hc.2)

theorem quiet_atStreamRead (i : OperationalIn) (s : Device) (hs : s.schedules = [])
    (hl : i.listing = none) : Quiet s (atStreamRead i s) := by
  unfold atStreamRead
  simp only []
  have h1 : Quiet s
      (if (!s.streamActive) = true then startRTDBStream i.streamReady i.beginOk s else s) := by
    split
    · exact quiet_startRTDBStream _ _ s hs
    · exact Quiet.quietRefl s hs
  generalize (if (!s.streamActive) = true then startRTDBStream i.streamReady i.beginOk s
    else s) = s1 at h1 ⊢
  have h2 := h1.quietTrans (quiet_checkSchedules i.checkMillis0 i.checkMillis1 i.timeinfo s1 h1.1)
  generalize checkSchedules i.checkMillis0 i.checkMillis1 i.timeinfo s1 = s2 at h2 ⊢
  rw [hl]
  split
  · have h3 : Quiet s { s2 with lastScheduleFetch := i.fetchMillis1 } := h2.quietTrans ⟨h2.1, rfl⟩
    exact h3.quietTrans (quiet_fetchSchedules_none _ h3.1)
  · exact h2

theorem quiet_operationalTick (i : OperationalIn) (s : Device) (hs : s.schedules = [])
    (hl : i.listing = none) (hc : i.calls.all callFails = true) :
    Quiet s (operationalTick i s) := by
  have h3 := quiet_atStreamRead i s hs hl
  have h4 : Quiet s
      (if i.readReady = true then
        if (!i.readOk) = true then
          { (runStreamCalls i.calls ((atStreamRead i s).emit .readStream)).print
              .streamReadError with streamActive := false }
        else runStreamCalls i.calls ((atStreamRead i s).emit .readStream)
      else atStreamRead i s) := by
    have he := h3.quietTrans (quiet_emit _ .readStream h3.1 rfl)
    have hr := he.quietTrans (quiet_runStreamCalls i.calls _ he.1 hc)
    split
    · split
      · have hp := hr.quietTrans (quiet_print _ .streamReadError hr.1 rfl)
        exact hp.quietTrans ⟨hp.1, rfl⟩
      · exact hr
    · exact h3
  rw [operationalTick_eq]
  generalize (if i.readReady = true then
        if (!i.readOk) = true then
          { (runStreamCalls i.calls ((atStreamRead i s).emit .readStream)).print
              .streamReadError with streamActive := false }
        else runStreamCalls i.calls ((atStreamRead i s).emit .readStream)
      else atStreamRead i s) = s4 at h4 ⊢
  split
  · have hp := h4.quietTrans (quiet_processPendingCommand i.deleteOk s4 h4.1)
    exact hp.quietTrans ⟨hp.1, rfl⟩
  · exact h4

theorem quiet_handleClient (client : Option ClientExchange) (s : Device)
    (hs : s.schedules = []) : Quiet s (handleClient client s) := by
  cases client with
  | none => exact Quiet.quietRefl s hs
  | some c =>
    unfold handleClient
    simp only []
    refine ⟨?_, ?_⟩ <;>
      (split_ifs <;>
        simp [Device.print, Device.emit, scheduleTriggers, isTrigger, hs])

theorem quiet_wifiWaitLoop (status : Nat → Bool) (budget attempts : Nat) (s : Device)
    (hs : s.schedules = []) : Quiet s (wifiWaitLoop status budget attempts s).2 := by
  induction budget generalizing attempts s with
  | zero => exact Quiet.quietRefl s hs
  | succ n ih =>
    unfold wifiWaitLoop
    split
    · have h1 := quiet_emit s (.delay 500) hs rfl
      have h2 := h1.quietTrans (quiet_print _ .wifiDot h1.1 rfl)
      exact h2.quietTrans (ih _ _ h2.1)
    · exact Quiet.quietRefl s hs

theorem quiet_connectToWiFi (status : Nat → Bool) (s : Device) (hs : s.schedules = []) :
    Quiet s (connectToWiFi status s) := by
  have h1 := quiet_print s .wifiConnecting hs rfl
  have h2 := h1.quietTrans (quiet_emit _ (.wifiBegin (s.print .wifiConnecting).preferences.ssid
        (s.print .wifiConnecting).preferences.pass) h1.1 rfl)
  have h3 := h2.quietTrans (quiet_wifiWaitLoop status 30 0 _ h2.1)
  unfold connectToWiFi
  simp only []
  split
  · have h4 := h3.quietTrans (quiet_print _ .wifiConnected h3.1 rfl)
    exact h4.quietTrans ⟨h4.1, rfl⟩
  · have h4 := h3.quietTrans (quiet_print _ .wifiFailed h3.1 rfl)
    exact h4.quietTrans ⟨h4.1, rfl⟩

theorem quiet_authenticate (i : AuthIn) (s : Device) (hs : s.schedules = [])
    (hl : i.listing = none) : Quiet s (authenticateWithFirebase i s) := by
  unfold authenticateWithFirebase
  simp only []
  have h0 := quiet_print s .authAlready hs rfl
  rw [hl]
  split
  · split
    · have h1 : Quiet s
          { s.print .authAlready with
            feederId := (s.print .authAlready).preferences.feederId
            currentState := .OPERATIONAL
            lastScheduleFetch := i.now } := h0.quietTrans ⟨h0.1, rfl⟩
      exact h1.quietTrans (quiet_fetchSchedules_none _ h1.1)
    · exact h0.quietTrans ⟨h0.1, rfl⟩
  · have h1 := quiet_print s .authConfiguring hs rfl
    exact h1.quietTrans (quiet_emit _ .firebaseBegin h1.1 rfl)

theorem quiet_register (i : RegisterIn) (s : Device) (hs : s.schedules = [])
    (hl : i.listing = none) : Quiet s (registerDeviceWithFirestore i s) := by
  unfold registerDeviceWithFirestore
  simp only []
  have h1 := quiet_print s .registering hs rfl
  rw [hl]
  split
  · exact quiet_print s .waitingForToken hs rfl
  · split
    · exact h1.quietTrans ⟨h1.1, rfl⟩
    · have h2 := h1.quietTrans
        (quiet_emit _ (.createDocument (s.print .registering).preferences.owner_uid) h1.1 rfl)
      split
      · have h3 := h2.quietTrans (quiet_print _ .feederDocCreated h2.1 rfl)
        split
        · split
          · have hq := quiet_fetchSchedules_none
              { ((({ (((s.print .registering).emit
                    (.createDocument (s.print .registering).preferences.owner_uid)).print
                      .feederDocCreated) with
                    feederId := parseFeederIdFromResponse i.payloadName,
                    preferences := { (s.print .registering).preferences with
                      feederId := parseFeederIdFromResponse i.payloadName } }.emit
                  (.putString "feederId" (parseFeederIdFromResponse i.payloadName))).emit
                  (.patchDocument ("users/" ++ (s.print .registering).preferences.owner_uid)
                    (parseFeederIdFromResponse i.payloadName))).print .userPatched) with
                lastScheduleFetch := i.now } h3.1
            refine ⟨hq.1, hq.2.trans ?_⟩
            simp [Device.print, Device.emit, scheduleTriggers, isTrigger]
          · refine ⟨h3.1, ?_⟩
            simp [Device.print, Device.emit, scheduleTriggers, isTrigger]
        · have h4 := h3.quietTrans (quiet_print _ .parseIdFailed h3.1 rfl)
          exact h4.quietTrans ⟨h4.1, rfl⟩
      · have h4 := h2.quietTrans (quiet_print _ .createFailed h2.1 rfl)
        exact h4.quietTrans ⟨h4.1, rfl⟩

theorem quiet_tickEnd (s : Device) (hs : s.schedules = []) :
    Quiet s (if s.restarted then s else s.emit (.delay 100)) := by
  split
  · exact Quiet.quietRefl s hs
  · exact quiet_emit s _ hs rfl

theorem quiet_loop (i : TickIn) (s : Device) (hs : s.schedules = [])
    (hf : tickFails i = true) : Quiet s (loop i s) := by
  simp only [tickFails, Bool.and_eq_true, Option.isNone_iff_eq_none] at hf
  obtain ⟨⟨⟨f1, f2⟩, f3⟩, f4⟩ := hf
  cases hr : s.restarted with
  | true =>
    simp only [loop, hr, if_true]
    exact Quiet.quietRefl s hs
  | false =>
    simp only [loop, hr, Bool.false_eq_true, if_false]
    cases hst : s.currentState with
    | PROVISIONING_MODE =>
      simp only []
      have h := quiet_handleClient i.client s hs
      exact h.quietTrans (quiet_tickEnd _ h.1)
    | CONNECTING_WIFI =>
      simp only []
      have h := quiet_connectToWiFi i.wifiStatus s hs
      exact h.quietTrans (quiet_tickEnd _ h.1)
    | AUTHENTICATING_FIREBASE =>
      simp only []
      have h := quiet_authenticate i.auth s hs f1
      exact h.quietTrans (quiet_tickEnd _ h.1)
    | REGISTERING_FIREBASE =>
      simp only []
      have h := quiet_register i.reg s hs f2
      exact h.quietTrans (quiet_tickEnd _ h.1)
    | OPERATIONAL =>
      simp only []
      have h := quiet_operationalTick i.op s hs f3 f4
      exact h.quietTrans (quiet_tickEnd _ h.1)
    | ERROR =>
      simp only []
      have h1 := quiet_print s .halting hs rfl
      have h2 := h1.quietTrans (quiet_emit _ (.delay 10000) h1.1 rfl)
      exact h2.quietTrans (quiet_tickEnd _ h2.1)

theorem quiet_step (st : Step) (s : Device) (hs : s.schedules = [])
    (hf : stepFails st = true) : Quiet s (step st s) := by
  cases st with
  | tick i => exact quiet_loop i s hs hf
  | call c =>
    unfold step
    simp only []
    split
    · exact Quiet.quietRefl s hs
    · exact quiet_runStreamCall c s hs hf

theorem quiet_run (steps : List Step) (s : Device) (hs : s.schedules = [])
    (hf : steps.all stepFails = true) : Quiet s (run steps s) := by
  induction steps generalizing s with
  | nil => exact Quiet.quietRefl s hs
  | cons st rest ih =>
    simp only [List.all_cons, Bool.and_eq_true] at hf
    have h1 := quiet_step st s hs hf.1
    unfold run
    exact h1.quietTrans (ih _ h1.1 hf.2)

theorem checkSchedules_empty_cache (m0 m1 : Nat) (now : Tm) (s : Device)
    (hs : s.schedules = []) :
    (checkSchedules m0 m1 now s).trace = s.trace := by
  by_cases h : subU32 m0 s.lastScheduleCheck < 60000
  · rw [checkSchedules_limited m0 m1 now s h]
  · rw [checkSchedules_eval m0 m1 now s h, hs]
    simp [checkTrace]

/-! ## Schedule cache: verified properties -/

/-- C12: with a non-empty identity, a `fetchSchedules` call whose
list-documents request fails leaves the schedule cache empty, whatever it held
before; an evaluation on the resulting device performs nothing (no trigger, no
call of `dispenseFood`), and the cache stays empty and no schedule triggers
over any later sequence of ticks and stream calls in which every
list-documents request fails. The cache after any fetch with a non-empty
identity is the same whatever the cache was before: empty after a failed
request, one converted entry per listed document after a successful one. -/
theorem failed_fetch_leaves_cache_empty :
    (∀ (s : Device), s.feederId.length ≠ 0 → (fetchSchedules none s).schedules = [])
      ∧ (∀ (s : Device) (m0 m1 : Nat) (now : Tm), s.feederId.length ≠ 0 →
          (checkSchedules m0 m1 now (fetchSchedules none s)).trace
              = (fetchSchedules none s).trace
            ∧ dispenseCalls (checkSchedules m0 m1 now (fetchSchedules none s)).trace
              = dispenseCalls (fetchSchedules none s).trace)
      ∧ (∀ (s : Device) (steps : List Step), s.feederId.length ≠ 0 →
          steps.all stepFails = true →
          (run steps (fetchSchedules none s)).schedules = []
            ∧ scheduleTriggers (run steps (fetchSchedules none s)).trace
              = scheduleTriggers (fetchSchedules none s).trace)
      ∧ (∀ (s : Device) (listing : Option (List ScheduleDoc)) (cache : List Schedule),
          s.feederId.length ≠ 0 →
          (fetchSchedules listing { s with schedules := cache }).schedules
              = (fetchSchedules listing s).schedules
            ∧ (fetchSchedules listing s).schedules
              = (match listing with
                | some docs => docs.map scheduleOfDoc
                | none => [])) := by
  have hempty : ∀ (s : Device), s.feederId.length ≠ 0 →
      (fetchSchedules none s).schedules = [] := by
    intro s hid
    rw [fetchSchedules_failed s hid]
  refine ⟨hempty, ?_, ?_, ?_⟩
  · intro s m0 m1 now hid
    have h := checkSchedules_empty_cache m0 m1 now (fetchSchedules none s) (hempty s hid)
    exact ⟨h, by rw [h]⟩
  · intro s steps hid hf
    exact quiet_run steps (fetchSchedules none s) (hempty s hid) hf
  · intro s listing cache hid
    have hid2 : ({ s with schedules := cache } : Device).feederId.length ≠ 0 := hid
    cases listing with
    | none =>
      rw [fetchSchedules_failed _ hid2, fetchSchedules_failed s hid]
      exact ⟨rfl, rfl⟩
    | some docs =>
      rw [fetchSchedules_listed docs _ hid2, fetchSchedules_listed docs s hid]
      exact ⟨rfl, rfl⟩

/-- Witness for C12: the device whose cache holds the Monday 08:00 schedule
triggers it on a Monday at 08:00, but after a failed fetch its cache is empty
and the same evaluation dispenses nothing. -/
theorem failed_fetch_leaves_cache_empty_witness :
    dispenseCalls (checkSchedules 60000 60000 ⟨1, 8, 0⟩ sampleMonday).trace = [(1, 20)]
      ∧ (fetchSchedules none sampleMonday).schedules = []
      ∧ dispenseCalls (checkSchedules 60000 60000 ⟨1, 8, 0⟩
          (fetchSchedules none sampleMonday)).trace = [] := by
  have h1 := failed_fetch_leaves_cache_empty.1 sampleMonday (by decide)
  have h2 := (failed_fetch_leaves_cache_empty.2.1 sampleMonday 60000 60000 ⟨1, 8, 0⟩
    (by decide)).2
  refine ⟨by decide, h1, ?_⟩
  rw [h2]
  decide

/-! ## Command staging: every dispense is announced once -/

theorem processPendingCommand_eq (deleteOk : Bool) (s : Device) :
    processPendingCommand deleteOk s
      = if s.pendingCommand.amount > 0 ∧ s.pendingCommand.bowl > 0 then
          { s with trace := s.trace ++
              ([ .serial (.processingCommand s.pendingCommand.bowl s.pendingCommand.amount) ]
                ++ dispenseTrace s.pendingCommand.bowl s.pendingCommand.amount
                ++ [ .deleteNode (streamPath ++ s.feederId),
                     .serial (if deleteOk then .nodeDeleted else .nodeDeleteFailed) ]) }
        else s := by
  unfold processPendingCommand
  split
  · cases deleteOk <;> simp [dispenseFood_eq, Device.print, Device.emit]
  · rfl

theorem SameCalls.callsRefl (s : Device) : SameCalls s s :=
  ⟨rfl, rfl⟩

theorem SameCalls.callsTrans {a b c : Device} (h1 : SameCalls a b) (h2 : SameCalls b c) :
    SameCalls a c :=
  ⟨h2.1.trans h1.1, h2.2.trans h1.2⟩

theorem sameCalls_trace (s : Device) (tr : List Effect) (h1 : dispenseCalls tr = [])
    (h2 : scheduleTriggers tr = 0) : SameCalls s { s with trace := s.trace ++ tr } := by
  refine ⟨?_, ?_⟩
  · simp [dispenseCalls_append, h1]
  · simp [scheduleTriggers_append, h2]

theorem sameCalls_emit (s : Device) (e : Effect) (h1 : dispenseCalls [e] = [])
    (h2 : isTrigger e = false) : SameCalls s (s.emit e) := by
  apply sameCalls_trace s _ h1
  simp [scheduleTriggers, h2]

theorem sameCalls_print (s : Device) (l : LogLine) (h1 : dispenseCalls [.serial l] = [])
    (h2 : isTrigger (.serial l) = false) : SameCalls s (s.print l) :=
  sameCalls_emit s _ h1 h2

theorem dispenseCalls_loaded (docs : List ScheduleDoc) :
    dispenseCalls (docs.map loadedLine) = [] := by
  induction docs with
  | nil => simp [dispenseCalls]
  | cons d ds ih => simp [loadedLine, dispenseCalls, ih]

theorem scheduleTriggers_loaded (docs : List ScheduleDoc) :
    scheduleTriggers (docs.map loadedLine) = 0 := by
  induction docs with
  | nil => simp [scheduleTriggers]
  | cons d ds ih =>
    simp only [scheduleTriggers] at ih
    simp [scheduleTriggers, loadedLine, isTrigger, ih]

theorem scheduleTriggers_checkTrace (now : Tm) (l : List Schedule) :
    scheduleTriggers (checkTrace now l) = (l.filter (scheduleDue now)).length := by
  induction l with
  | nil => simp [checkTrace, scheduleTriggers]
  | cons sched rest ih =>
    have hd := scheduleTriggers_dispenseTrace sched.bowlNumber sched.portionGrams
    simp only [scheduleTriggers] at hd
    by_cases h : scheduleDue now sched = true
    · unfold checkTrace
      rw [scheduleTriggers_append, ih]
      simp [h, scheduleTriggers, isTrigger, hd]
      omega
    · have h2 : scheduleDue now sched = false := by simpa using h
      unfold checkTrace
      rw [scheduleTriggers_append, ih]
      simp [h2, scheduleTriggers]

theorem sameCalls_fetchSchedules (listing : Option (List ScheduleDoc)) (s : Device) :
    SameCalls s (fetchSchedules listing s) := by
  by_cases hid : s.feederId.length = 0
  · simp [fetchSchedules, hid, SameCalls.callsRefl]
  · cases listing with
    | none =>
      rw [fetchSchedules_failed s hid]
      refine ⟨?_, ?_⟩
      · simp [dispenseCalls_append, dispenseCalls]
      · simp [scheduleTriggers, isTrigger]
    | some docs =>
      rw [fetchSchedules_listed docs s hid]
      refine ⟨?_, ?_⟩
      · simp [dispenseCalls_append, dispenseCalls, dispenseCalls_loaded]
      · have h := scheduleTriggers_loaded docs
        simp only [scheduleTriggers] at h
        simp [scheduleTriggers, isTrigger, h]

theorem sameCalls_streamTimeoutCallback (timeout : Bool) (s : Device) :
    SameCalls s (streamTimeoutCallback timeout s) := by
  unfold streamTimeoutCallback
  split
  · exact (sameCalls_print s .streamTimedOut rfl rfl).callsTrans ⟨rfl, rfl⟩
  · exact SameCalls.callsRefl s

theorem sameCalls_startRTDBStream (ready beginOk : Bool) (s : Device) :
    SameCalls s (startRTDBStream ready beginOk s) := by
  unfold startRTDBStream
  simp only []
  split
  · exact SameCalls.callsRefl s
  · have h2 := (sameCalls_print s (.streamStarting (streamPath ++ s.feederId)) rfl rfl).callsTrans
      (sameCalls_emit _ (.beginStream (streamPath ++ s.feederId)) rfl rfl)
    split
    · exact h2.callsTrans (sameCalls_print _ .streamBeginFailed rfl rfl)
    · exact ((h2.callsTrans (sameCalls_emit _ .setStreamCallback rfl rfl)).callsTrans
        ⟨rfl, rfl⟩).callsTrans (sameCalls_print _ .streamStarted rfl rfl)

theorem sameCalls_streamCallback (data : FirebaseStream)
    (listing : Option (List ScheduleDoc)) (s : Device) :
    SameCalls s (streamCallback data listing s) := by
  have h0 := sameCalls_print s (.streamEvent data.eventType data.dataPath data.payload)
    rfl rfl
  unfold streamCallback
  simp only []
  split
  · split
    · split
      · exact h0.callsTrans ⟨rfl, rfl⟩
      · exact h0
    · split
      · exact ((h0.callsTrans (sameCalls_print _ .refetchSignal rfl rfl)).callsTrans
          (sameCalls_fetchSchedules listing _)).callsTrans
            (sameCalls_emit _ (.setNull (streamPath ++ (fetchSchedules listing
              ((s.print (.streamEvent data.eventType data.dataPath data.payload)).print
                .refetchSignal)).feederId)) rfl rfl)
      · exact h0
  · exact h0

theorem sameCalls_runStreamCall (c : StreamCall) (s : Device) :
    SameCalls s (runStreamCall c s) := by
  cases c with
  | event data listing => exact sameCalls_streamCallback data listing s
  | timeout flag => exact sameCalls_streamTimeoutCallback flag s

theorem sameCalls_runStreamCalls (cs : List StreamCall) (s : Device) :
    SameCalls s (runStreamCalls cs s) := by
  induction cs generalizing s with
  | nil => exact SameCalls.callsRefl s
  | cons c rest ih => exact (sameCalls_runStreamCall c s).callsTrans (ih _)

theorem sameCalls_afterStreamRead (i : OperationalIn) (s : Device) :
    SameCalls (atStreamRead i s) (afterStreamRead i s) := by
  unfold afterStreamRead
  have hr := (sameCalls_emit (atStreamRead i s) .readStream rfl rfl).callsTrans
    (sameCalls_runStreamCalls i.calls _)
  split
  · split
    · exact (hr.callsTrans (sameCalls_print _ .streamReadError rfl rfl)).callsTrans ⟨rfl, rfl⟩
    · exact hr
  · exact SameCalls.callsRefl _

theorem sameCalls_handleClient (client : Option ClientExchange) (s : Device) :
    SameCalls s (handleClient client s) := by
  cases client with
  | none => exact SameCalls.callsRefl s
  | some c =>
    unfold handleClient
    simp only []
    refine ⟨?_, ?_⟩ <;>
      (split_ifs <;>
        simp [Device.print, Device.emit, dispenseCalls_append, dispenseCalls,
          scheduleTriggers, isTrigger])

theorem sameCalls_wifiWaitLoop (status : Nat → Bool) (budget attempts : Nat) (s : Device) :
    SameCalls s (wifiWaitLoop status budget attempts s).2 := by
  induction budget generalizing attempts s with
  | zero => exact SameCalls.callsRefl s
  | succ n ih =>
    unfold wifiWaitLoop
    split
    · exact ((sameCalls_emit s (.delay 500) rfl rfl).callsTrans
        (sameCalls_print _ .wifiDot rfl rfl)).callsTrans (ih _ _)
    · exact SameCalls.callsRefl s

theorem sameCalls_connectToWiFi (status : Nat → Bool) (s : Device) :
    SameCalls s (connectToWiFi status s) := by
  have h := ((sameCalls_print s .wifiConnecting rfl rfl).callsTrans
      (sameCalls_emit _ (.wifiBegin (s.print .wifiConnecting).preferences.ssid
        (s.print .wifiConnecting).preferences.pass) rfl rfl)).callsTrans
      (sameCalls_wifiWaitLoop status 30 0 _)
  unfold connectToWiFi
  simp only []
  split
  · exact (h.callsTrans (sameCalls_print _ .wifiConnected rfl rfl)).callsTrans ⟨rfl, rfl⟩
  · exact (h.callsTrans (sameCalls_print _ .wifiFailed rfl rfl)).callsTrans ⟨rfl, rfl⟩

theorem sameCalls_authenticate (i : AuthIn) (s : Device) :
    SameCalls s (authenticateWithFirebase i s) := by
  unfold authenticateWithFirebase
  simp only []
  have h0 := sameCalls_print s .authAlready rfl rfl
  split
  · split
    · exact (h0.callsTrans ⟨rfl, rfl⟩).callsTrans (sameCalls_fetchSchedules i.listing
        { s.print .authAlready with
          feederId := (s.print .authAlready).preferences.feederId
          currentState := .OPERATIONAL
          lastScheduleFetch := i.now })
    · exact h0.callsTrans ⟨rfl, rfl⟩
  · exact (sameCalls_print s .authConfiguring rfl rfl).callsTrans
      (sameCalls_emit _ .firebaseBegin rfl rfl)

theorem sameCalls_register (i : RegisterIn) (s : Device) :
    SameCalls s (registerDeviceWithFirestore i s) := by
  unfold registerDeviceWithFirestore
  simp only []
  have h1 := sameCalls_print s .registering rfl rfl
  split
  · exact sameCalls_print s .waitingForToken rfl rfl
  · split
    · exact h1.callsTrans ⟨rfl, rfl⟩
    · have h2 := h1.callsTrans
        (sameCalls_emit _ (.createDocument (s.print .registering).preferences.owner_uid)
          rfl rfl)
      split
      · have h3 := h2.callsTrans (sameCalls_print _ .feederDocCreated rfl rfl)
        split
        · split
          · refine ⟨?_, ?_⟩
            · refine ((sameCalls_fetchSchedules _ _).1).trans ?_
              simp [Device.print, Device.emit, dispenseCalls_append, dispenseCalls]
            · refine ((sameCalls_fetchSchedules _ _).2).trans ?_
              simp [Device.print, Device.emit, scheduleTriggers, isTrigger]
          · refine ⟨?_, ?_⟩
            · simp [Device.print, Device.emit, dispenseCalls_append, dispenseCalls]
            · simp [Device.print, Device.emit, scheduleTriggers, isTrigger]
        · exact (h3.callsTrans (sameCalls_print _ .parseIdFailed rfl rfl)).callsTrans
            ⟨rfl, rfl⟩
      · exact (h2.callsTrans (sameCalls_print _ .createFailed rfl rfl)).callsTrans ⟨rfl, rfl⟩

theorem sameCalls_tickEnd (s : Device) :
    SameCalls s (if s.restarted then s else s.emit (.delay 100)) := by
  split
  · exact SameCalls.callsRefl s
  · exact sameCalls_emit s _ rfl rfl

theorem accounted_of_same {s t : Device} (h : SameCalls s t)
    (hc : commandDispenses t.trace = commandDispenses s.trace) : Accounted s t := by
  unfold Accounted
  rw [h.1, h.2, hc]

theorem Accounted.accountedTrans {a b c : Device} (h1 : Accounted a b) (h2 : Accounted b c) :
    Accounted a c := by
  unfold Accounted at *
  omega

theorem accounted_checkSchedules (m0 m1 : Nat) (now : Tm) (s : Device) :
    Accounted s (checkSchedules m0 m1 now s) := by
  by_cases h : subU32 m0 s.lastScheduleCheck < 60000
  · rw [checkSchedules_limited m0 m1 now s h]
    rfl
  · rw [checkSchedules_eval m0 m1 now s h]
    unfold Accounted
    simp only [dispenseCalls_append, scheduleTriggers_append, commandDispenses_append,
      dispenseCalls_checkTrace, scheduleTriggers_checkTrace, commandDispenses_checkTrace,
      List.length_append, List.length_map]
    omega

theorem dispenseCalls_processPendingCommand (deleteOk : Bool) (s : Device) :
    dispenseCalls (processPendingCommand deleteOk s).trace
      = dispenseCalls s.trace
        ++ (if s.pendingCommand.amount > 0 ∧ s.pendingCommand.bowl > 0 then
              [(s.pendingCommand.bowl, s.pendingCommand.amount)]
            else []) := by
  rw [processPendingCommand_eq]
  split
  · cases deleteOk <;> simp [dispenseCalls_append, dispenseCalls_dispenseTrace, dispenseCalls]
  · simp

theorem accounted_processPendingCommand (deleteOk : Bool) (s : Device) :
    Accounted s (processPendingCommand deleteOk s) := by
  unfold Accounted
  rw [dispenseCalls_processPendingCommand, processPendingCommand_eq]
  have hc := commandDispenses_dispenseTrace s.pendingCommand.bowl s.pendingCommand.amount
  have ht := scheduleTriggers_dispenseTrace s.pendingCommand.bowl s.pendingCommand.amount
  split
  · simp only [scheduleTriggers_append, commandDispenses_append, hc, ht, List.length_append]
    cases deleteOk <;> simp [scheduleTriggers, commandDispenses, isTrigger, isCommandDispense] <;>
      omega
  · simp

theorem accounted_atStreamRead (i : OperationalIn) (s : Device) :
    Accounted s (atStreamRead i s) := by
  unfold atStreamRead
  simp only []
  have h1 : Accounted s
      (if (!s.streamActive) = true then startRTDBStream i.streamReady i.beginOk s else s) := by
    split
    · exact accounted_of_same (sameCalls_startRTDBStream _ _ s)
        (samePending_startRTDBStream _ _ s).2.2.2
    · rfl
  generalize (if (!s.streamActive) = true then startRTDBStream i.streamReady i.beginOk s
    else s) = s1 at h1 ⊢
  have h2 := h1.accountedTrans
    (accounted_checkSchedules i.checkMillis0 i.checkMillis1 i.timeinfo s1)
  generalize checkSchedules i.checkMillis0 i.checkMillis1 i.timeinfo s1 = s2 at h2 ⊢
  split
  · have h3 : Accounted s { s2 with lastScheduleFetch := i.fetchMillis1 } := h2
    exact h3.accountedTrans (accounted_of_same (sameCalls_fetchSchedules _ _)
      (samePending_fetchSchedules _ _).2.2.2)
  · exact h2

theorem afterStreamRead_pending (i : OperationalIn) (s : Device) :
    commandDispenses (afterStreamRead i s).trace = commandDispenses s.trace
      ∧ (acceptedInOperationalTick i s = 0 →
          (afterStreamRead i s).newCommandAvailable = s.newCommandAvailable) :=
  ⟨(afterRead_pending i s).1, (afterRead_pending i s).2.2⟩

theorem operationalTick_drain (i : OperationalIn) (s : Device) :
    operationalTick i s
      = if (afterStreamRead i s).newCommandAvailable = true then
          { processPendingCommand i.deleteOk (afterStreamRead i s) with
            newCommandAvailable := false }
        else afterStreamRead i s := by
  rfl

theorem dispenseCalls_operationalTick (i : OperationalIn) (s : Device) :
    dispenseCalls (operationalTick i s).trace
      = dispenseCalls (atStreamRead i s).trace ++ stagedCall (afterStreamRead i s) := by
  rw [operationalTick_drain]
  have hs := (sameCalls_afterStreamRead i s).1
  by_cases hn : (afterStreamRead i s).newCommandAvailable = true
  · rw [if_pos hn]
    have hd := dispenseCalls_processPendingCommand i.deleteOk (afterStreamRead i s)
    have heq : ({ processPendingCommand i.deleteOk (afterStreamRead i s) with
        newCommandAvailable := false } : Device).trace
          = (processPendingCommand i.deleteOk (afterStreamRead i s)).trace := rfl
    rw [heq, hd, hs]
    unfold stagedCall
    simp [hn]
  · rw [if_neg hn, hs]
    unfold stagedCall
    simp [hn]

theorem accounted_operationalTick (i : OperationalIn) (s : Device) :
    Accounted s (operationalTick i s) := by
  have h3 := accounted_atStreamRead i s
  have h4 : Accounted s (afterStreamRead i s) :=
    h3.accountedTrans (accounted_of_same (sameCalls_afterStreamRead i s)
      ((afterStreamRead_pending i s).1.trans (samePending_atStreamRead i s).2.2.2.symm))
  rw [operationalTick_drain]
  split
  · have h5 := h4.accountedTrans
      (accounted_processPendingCommand i.deleteOk (afterStreamRead i s))
    exact h5
  · exact h4

theorem accounted_loop (i : TickIn) (s : Device) : Accounted s (loop i s) := by
  cases hr : s.restarted with
  | true =>
    simp only [loop, hr, if_true]
    rfl
  | false =>
    simp only [loop, hr, Bool.false_eq_true, if_false]
    cases hs : s.currentState with
    | PROVISIONING_MODE =>
      simp only []
      exact (accounted_of_same (sameCalls_handleClient i.client s)
        (samePending_handleClient i.client s).2.2.2).accountedTrans
        (accounted_of_same (sameCalls_tickEnd _) (samePending_tickEnd _).2.2.2)
    | CONNECTING_WIFI =>
      simp only []
      exact (accounted_of_same (sameCalls_connectToWiFi i.wifiStatus s)
        (samePending_connectToWiFi i.wifiStatus s).2.2.2).accountedTrans
        (accounted_of_same (sameCalls_tickEnd _) (samePending_tickEnd _).2.2.2)
    | AUTHENTICATING_FIREBASE =>
      simp only []
      exact (accounted_of_same (sameCalls_authenticate i.auth s)
        (samePending_authenticate i.auth s).2.2.2).accountedTrans
        (accounted_of_same (sameCalls_tickEnd _) (samePending_tickEnd _).2.2.2)
    | REGISTERING_FIREBASE =>
      simp only []
      exact (accounted_of_same (sameCalls_register i.reg s)
        (samePending_register i.reg s).2.2.2).accountedTrans
        (accounted_of_same (sameCalls_tickEnd _) (samePending_tickEnd _).2.2.2)
    | OPERATIONAL =>
      simp only []
      exact (accounted_operationalTick i.op s).accountedTrans
        (accounted_of_same (sameCalls_tickEnd _) (samePending_tickEnd _).2.2.2)
    | ERROR =>
      simp only []
      have h1 := (sameCalls_print s .halting rfl rfl).callsTrans
        (sameCalls_emit _ (.delay 10000) rfl rfl)
      have h2 := (samePending_print s .halting rfl).pendingTrans
        (samePending_emit _ (.delay 10000) rfl)
      exact (accounted_of_same h1 h2.2.2.2).accountedTrans
        (accounted_of_same (sameCalls_tickEnd _) (samePending_tickEnd _).2.2.2)

theorem accounted_step (st : Step) (s : Device) : Accounted s (step st s) := by
  cases st with
  | tick i => exact accounted_loop i s
  | call c =>
    unfold step
    simp only []
    split
    · rfl
    · exact accounted_of_same (sameCalls_runStreamCall c s) (runStreamCall_pending c s).1

theorem accounted_run (steps : List Step) (s : Device) : Accounted s (run steps s) := by
  induction steps generalizing s with
  | nil => rfl
  | cons st rest ih =>
    unfold run
    exact (accounted_step st s).accountedTrans (ih _)

theorem setup_calls (prefs : Preferences) (bootMillis : Nat) :
    dispenseCalls (setup prefs bootMillis).trace = []
      ∧ scheduleTriggers (setup prefs bootMillis).trace = 0 := by
  unfold setup
  simp only []
  split <;>
    simp [startProvisioningServer, initialDevice, Device.print, Device.emit, dispenseCalls,
      scheduleTriggers, isTrigger]

theorem loop_operational_calls (i : TickIn) (s : Device) (hr : s.restarted = false)
    (hs : s.currentState = .OPERATIONAL) :
    (loop i s).newCommandAvailable = false
      ∧ dispenseCalls (loop i s).trace = dispenseCalls (operationalTick i.op s).trace := by
  have h := samePending_tickEnd (operationalTick i.op s)
  have hc := sameCalls_tickEnd (operationalTick i.op s)
  have ho := operationalTick_pending i.op s
  simp only [loop, hr, hs, Bool.false_eq_true, if_false]
  exact ⟨h.1.trans ho.2.2.1, hc.1⟩

/-! ## Command staging: verified properties -/

/-- C11: a staged command is consumed by at most one dispense.
`processPendingCommand` on a valid staged command performs exactly: the
announcement line, one call of `dispenseFood` with the staged bowl and amount,
the delete of the command node and its report; on an invalid one it does
nothing. The calls of `dispenseFood` made by an `OPERATIONAL` tick are those
made before the stream read, all of them schedule triggers, followed by at
most one call, for the command staged at that point; the tick ends with
`newCommandAvailable` false; a tick that starts with `newCommandAvailable`
false and in which no feed event is accepted makes no call for a command.
Over any sequence of ticks and stream calls every call of `dispenseFood` is
matched by one announcement (schedule trigger or command), and the command
announcements plus the command still staged never exceed the accepted feed
events plus the command staged at the start; so in a session started by
`setup` the calls of `dispenseFood` that are not schedule triggers never
exceed the accepted feed events. A stream call counts as accepted exactly
when it is a feed event whose timestamp is above the last processed one. -/
theorem staged_command_dispensed_at_most_once :
    (∀ (deleteOk : Bool) (s : Device),
        processPendingCommand deleteOk s
          = if s.pendingCommand.amount > 0 ∧ s.pendingCommand.bowl > 0 then
              { s with trace := s.trace ++
                  ([ .serial (.processingCommand s.pendingCommand.bowl
                        s.pendingCommand.amount) ]
                    ++ dispenseTrace s.pendingCommand.bowl s.pendingCommand.amount
                    ++ [ .deleteNode (streamPath ++ s.feederId),
                         .serial (if deleteOk then .nodeDeleted else .nodeDeleteFailed) ]) }
            else s)
      ∧ (∀ (i : OperationalIn) (s : Device),
          dispenseCalls (operationalTick i s).trace
              = dispenseCalls (atStreamRead i s).trace ++ stagedCall (afterStreamRead i s)
            ∧ (stagedCall (afterStreamRead i s)).length ≤ 1
            ∧ (dispenseCalls (atStreamRead i s).trace).length + scheduleTriggers s.trace
              = (dispenseCalls s.trace).length + scheduleTriggers (atStreamRead i s).trace
            ∧ (operationalTick i s).newCommandAvailable = false
            ∧ (s.newCommandAvailable = false → acceptedInOperationalTick i s = 0 →
                dispenseCalls (operationalTick i s).trace
                  = dispenseCalls (atStreamRead i s).trace))
      ∧ (∀ (i : TickIn) (s : Device), s.restarted = false → s.currentState = .OPERATIONAL →
          (loop i s).newCommandAvailable = false
            ∧ dispenseCalls (loop i s).trace = dispenseCalls (operationalTick i.op s).trace)
      ∧ (∀ (steps : List Step) (s : Device),
          (dispenseCalls (run steps s).trace).length + scheduleTriggers s.trace
                + commandDispenses s.trace
              = (dispenseCalls s.trace).length + scheduleTriggers (run steps s).trace
                + commandDispenses (run steps s).trace
            ∧ commandDispenses (run steps s).trace + pendingCount (run steps s)
              ≤ commandDispenses s.trace + pendingCount s + acceptedInRun steps s)
      ∧ (∀ (prefs : Preferences) (bootMillis : Nat) (steps : List Step),
          (dispenseCalls (run steps (setup prefs bootMillis)).trace).length
              = scheduleTriggers (run steps (setup prefs bootMillis)).trace
                + commandDispenses (run steps (setup prefs bootMillis)).trace
            ∧ commandDispenses (run steps (setup prefs bootMillis)).trace
              ≤ acceptedInRun steps (setup prefs bootMillis)
            ∧ (dispenseCalls (run steps (setup prefs bootMillis)).trace).length
              ≤ scheduleTriggers (run steps (setup prefs bootMillis)).trace
                + acceptedInRun steps (setup prefs bootMillis))
      ∧ (∀ (d : FirebaseStream) (l : Option (List ScheduleDoc)) (s : Device),
          (acceptedCall (.event d l) s = 1
              ↔ (isFeed d ∧ s.lastCmdTimestamp < eventTimestamp d))
            ∧ ∀ flag : Bool, acceptedCall (.timeout flag) s = 0) := by
  refine ⟨processPendingCommand_eq, ?_, loop_operational_calls, ?_, ?_, ?_⟩
  · intro i s
    have hcalls := dispenseCalls_operationalTick i s
    have hacc := accounted_atStreamRead i s
    have hsame := (samePending_atStreamRead i s).2.2.2
    unfold Accounted at hacc
    refine ⟨hcalls, ?_, by omega, (operationalTick_pending i s).2.2.1, ?_⟩
    · unfold stagedCall
      split <;> simp
    · intro hs hz
      have hflag := (afterStreamRead_pending i s).2 hz
      rw [hcalls]
      unfold stagedCall
      simp [hflag, hs]
  · intro steps s
    exact ⟨accounted_run steps s, run_pending steps s⟩
  · intro prefs bootMillis steps
    have hacc := accounted_run steps (setup prefs bootMillis)
    have hpen := run_pending steps (setup prefs bootMillis)
    obtain ⟨p1, p2⟩ := setup_pending prefs bootMillis
    obtain ⟨c1, c2⟩ := setup_calls prefs bootMillis
    unfold Accounted at hacc
    rw [c1, c2, p1] at hacc
    simp only [List.length_nil] at hacc
    refine ⟨by omega, by omega, by omega⟩
  · intro d l s
    refine ⟨acceptedCall_event_iff d l s, ?_⟩
    intro flag
    have h := samePending_streamTimeoutCallback flag s
    simp [acceptedCall, runStreamCall, h.2.2.1]

/-- Witness for C11: a registered device run for three ticks, the last one
operational on a Monday at 08:00 with the feed event of timestamp 5 arriving:
one schedule trigger and one accepted event, two calls of `dispenseFood`, the
scheduled one and the commanded one. -/
theorem staged_command_dispensed_at_most_once_witness :
    dispenseCalls (run [.tick sampleTick, .tick sampleTick, .tick sampleTick]
        (setup sampleRegisteredPrefs 0)).trace = [(1, 20), (1, 10)]
      ∧ scheduleTriggers (run [.tick sampleTick, .tick sampleTick, .tick sampleTick]
          (setup sampleRegisteredPrefs 0)).trace = 1
      ∧ acceptedInRun [.tick sampleTick, .tick sampleTick, .tick sampleTick]
          (setup sampleRegisteredPrefs 0) = 1
      ∧ (dispenseCalls (run [.tick sampleTick, .tick sampleTick, .tick sampleTick]
          (setup sampleRegisteredPrefs 0)).trace).length
        ≤ scheduleTriggers (run [.tick sampleTick, .tick sampleTick, .tick sampleTick]
            (setup sampleRegisteredPrefs 0)).trace
          + acceptedInRun [.tick sampleTick, .tick sampleTick, .tick sampleTick]
            (setup sampleRegisteredPrefs 0) :=
  ⟨by decide, by decide, by decide,
    (staged_command_dispensed_at_most_once.2.2.2.2.1 sampleRegisteredPrefs 0
      [.tick sampleTick, .tick sampleTick, .tick sampleTick]).2.2⟩

end PawFeeds
